import Mathlib

/-!
# Port-wait poller (`provider/data_source_port_wait.go`)

Shallow embedding of `dataSourcePortWait.tryConnect` together with the few
library operations it calls (`net.JoinHostPort`, `fmt.Sprintf("%d", _)`,
`time.Duration` arithmetic, `time.Time.Add/Sub/After`,
`diag.Diagnostics.AddError`).

The function talks to the outside world through two primitives only:
`time.Now()` and `net.Dial` / `net.DialTimeout`.  Both are modelled as
oracles indexed by the number of calls made so far, so every possible
behaviour of the clock and of the network is covered.  The calls the
function makes (clock readings, dial attempts, `conn.Close()`,
`time.Sleep`) are recorded in an event trace.

The `for` loop is embedded as a total step function `iteration` (one pass
through the loop body) iterated by `loop` under a fuel bound; a run
terminates exactly when some fuel yields a result.
-/

namespace PortWait

/-! ## Framework value types (`types.String`, `types.Bool`, `types.Int64`) -/

/-- Value of `types.String`. -/
structure TString where
  Unknown : Bool := false
  Null : Bool := false
  Value : String := ""
deriving DecidableEq, Repr

/-- Value of `types.Bool`. -/
structure TBool where
  Unknown : Bool := false
  Null : Bool := false
  Value : Bool := false
deriving DecidableEq, Repr

/-- Value of `types.Int64`; the `int64` payload is an integer. -/
structure TInt64 where
  Unknown : Bool := false
  Null : Bool := false
  Value : Int := 0
deriving DecidableEq, Repr

/-- The record `dataSourcePortWaitType` (lines 14-22). -/
structure dataSourcePortWaitType where
  ID : TString := {}
  Available : TBool := {}
  TimeoutSec : TInt64 := {}
  ErrorOnTimeout : TBool := {}
  Host : TString := {}
  Port : TInt64 := {}
  CooldownMs : TInt64 := {}
deriving DecidableEq, Repr

/-- The constant `defaultCooldownMs` (line 24). -/
def defaultCooldownMs : Int := 500

/-! ## Diagnostics (`terraform-plugin-framework/diag`) -/

/-- Severity of a diagnostic. -/
inductive Severity where
  | Error
  | Warning
deriving DecidableEq, Repr

/-- A generic diagnostic: severity, summary and detail. -/
structure Diagnostic where
  severity : Severity
  summary : String
  detail : String
deriving DecidableEq, Repr

/-- The collection `diag.Diagnostics`. -/
abbrev Diagnostics := List Diagnostic

/-- The constructor `diag.NewErrorDiagnostic`. -/
def NewErrorDiagnostic (summary detail : String) : Diagnostic :=
  { severity := Severity.Error, summary := summary, detail := detail }

/-- The method `Diagnostics.Contains`: some element equals the given one. -/
def Diagnostics.Contains (diags : Diagnostics) (d : Diagnostic) : Bool :=
  diags.any (fun x => decide (x = d))

/-- The method `Diagnostics.Append` for one diagnostic: a diagnostic already
contained is skipped, any other is put at the end. -/
def Diagnostics.Append (diags : Diagnostics) (d : Diagnostic) : Diagnostics :=
  if diags.Contains d then diags else diags ++ [d]

/-- The method `Diagnostics.AddError`. -/
def Diagnostics.AddError (diags : Diagnostics) (summary detail : String) : Diagnostics :=
  diags.Append (NewErrorDiagnostic summary detail)

/-- The method `Diagnostics.HasError`. -/
def Diagnostics.HasError (diags : Diagnostics) : Bool :=
  diags.any (fun x => decide (x.severity = Severity.Error))

/-! ## Durations and instants (`time`) -/

/-- Two-complement wrap of an integer into the `int64` range. -/
def wrapInt64 (x : Int) : Int :=
  (x + 9223372036854775808) % 18446744073709551616 - 9223372036854775808

/-- The constant `time.Second`, in nanoseconds. -/
def Second : Int := 1000000000

/-- The constant `time.Millisecond`, in nanoseconds. -/
def Millisecond : Int := 1000000

/-- Largest `time.Duration`. -/
def maxDuration : Int := 9223372036854775807

/-- Smallest `time.Duration`. -/
def minDuration : Int := -9223372036854775808

/-- The expression `time.Duration(n) * unit`: an `int64` product, which wraps. -/
def durationOf (n unit : Int) : Int := wrapInt64 (n * unit)

/-- An instant of the clock read by `time.Now()`, in nanoseconds. -/
abbrev Time := Int

/-- The method `Time.Add`. -/
def Time.Add (t d : Int) : Int := t + d

/-- The method `Time.Sub`: the difference, saturated to the range of
`time.Duration`. -/
def Time.Sub (t u : Int) : Int :=
  if t - u > maxDuration then maxDuration
  else if t - u < minDuration then minDuration
  else t - u

/-- The method `Time.After`. -/
def Time.After (t u : Int) : Bool := decide (u < t)

/-! ## Address (`net.JoinHostPort`, `fmt.Sprintf`) -/

/-- Decimal rendering of an integer, as `fmt.Sprintf("%d", n)` gives it. -/
def formatInt (n : Int) : String :=
  if n < 0 then "-" ++ Nat.repr n.natAbs else Nat.repr n.natAbs

/-- The function `net.JoinHostPort`: a host holding a colon is put in
brackets. -/
def JoinHostPort (host port : String) : String :=
  if ':' ∈ host.data then "[" ++ host ++ "]:" ++ port
  else host ++ ":" ++ port

/-- The address computed on line 78. -/
def addressOf (state : dataSourcePortWaitType) : String :=
  JoinHostPort state.Host.Value (formatInt state.Port.Value)

/-! ## The outside world -/

/-- What a dial returns: `conn` is the connection handle (`none` for a nil
connection) and `err` the error (`none` for a nil error). -/
structure DialResult where
  conn : Option Nat
  err : Option String
deriving DecidableEq, Repr

/-- The test of line 98, `err != nil || conn == nil`. -/
def DialResult.failed (r : DialResult) : Bool :=
  r.err.isSome || r.conn.isNone

/-- The clock and the network.  `clock k` is what the `k`-th call of
`time.Now()` returns (counted from 0); `dial k address timeout` is what the
`k`-th dial returns, `timeout = none` standing for `net.Dial` and
`some d` for `net.DialTimeout` with timeout `d`. -/
structure Env where
  clock : Nat → Time
  dial : Nat → String → Option Int → DialResult

/-- Calls made by `tryConnect`, in the order they are made. -/
inductive Event where
  | now (t : Time)
  | dial (address : String) (timeout : Option Int) (r : DialResult)
  | close (conn : Nat)
  | sleep (d : Int)
deriving DecidableEq, Repr

/-- A dial event whose result passes the test of line 98. -/
def Event.isSuccess : Event → Bool
  | Event.dial _ _ r => !r.failed
  | _ => false

/-- A dial event. -/
def Event.isDial : Event → Bool
  | Event.dial _ _ _ => true
  | _ => false

/-- A close event. -/
def Event.isClose : Event → Bool
  | Event.close _ => true
  | _ => false

/-- A clock reading. -/
def Event.isNow : Event → Bool
  | Event.now _ => true
  | _ => false

/-- A sleep. -/
def Event.isSleep : Event → Bool
  | Event.sleep _ => true
  | _ => false

/-! ## `tryConnect` -/

/-- The statement by which the loop is left: `return` on line 92, `break` on
line 94, `return` on line 110, `break` on line 112, `break` on line 121. -/
inductive Exit where
  | timeoutReturn
  | timeoutBreak
  | cooldownReturn
  | cooldownBreak
  | connected
deriving DecidableEq, Repr

/-- Whether the exit is a `return`, which skips line 124. -/
def Exit.isReturn : Exit → Bool
  | Exit.timeoutReturn => true
  | Exit.cooldownReturn => true
  | _ => false

/-- Outcome of one pass through the loop body: the loop is left (`done`) with
the record and diagnostics as they then stand, or goes round again (`next`)
with the counts of clock readings and dials made so far.  Both carry the
events of this pass. -/
inductive Step where
  | done (exit : Exit) (state : dataSourcePortWaitType) (diags : Diagnostics)
      (events : List Event)
  | next (reads dials : Nat) (events : List Event)
deriving DecidableEq, Repr

/-- The cooldown in milliseconds chosen on lines 99-102. -/
def cooldownMsOf (state : dataSourcePortWaitType) : Int :=
  if !state.CooldownMs.Unknown && !state.CooldownMs.Null then state.CooldownMs.Value
  else defaultCooldownMs

/-- The cooldown as a duration (line 103). -/
def cooldownDurOf (state : dataSourcePortWaitType) : Int :=
  durationOf (cooldownMsOf state) Millisecond

/-- Lines 98-121: what follows a dial that returned `r`, with `reads` clock
readings and `dials` dials (this one not counted) made before. -/
def afterDial (env : Env) (state : dataSourcePortWaitType) (diags : Diagnostics)
    (address : String) (endTime : Time) (reads dials : Nat) (r : DialResult) : Step :=
  if r.failed then
    let cooldownMs := cooldownMsOf state
    let cooldownDur := durationOf cooldownMs Millisecond
    if cooldownMs ≠ 0 then
      if state.TimeoutSec.Value ≠ 0 then
        let now := env.clock reads
        if Time.After (Time.Add now cooldownDur) endTime then
          if state.ErrorOnTimeout.Value then
            Step.done Exit.cooldownReturn state
              (diags.AddError "connection timeout"
                ("prematurely timed out trying to connect to " ++ address ++ " (cooldown skipped)"))
              [Event.now now]
          else
            Step.done Exit.cooldownBreak state diags [Event.now now]
        else
          Step.next (reads + 1) (dials + 1) [Event.now now, Event.sleep cooldownDur]
      else
        Step.next reads (dials + 1) [Event.sleep cooldownDur]
    else
      Step.next reads (dials + 1) []
  else
    Step.done Exit.connected { state with Available := { Value := true } } diags
      (match r.conn with
        | some c => [Event.close c]
        | none => [])

/-- Prefix the events of a pass with those that came first in it. -/
def Step.after (events : List Event) : Step → Step
  | Step.done e s d ev => Step.done e s d (events ++ ev)
  | Step.next r k ev => Step.next r k (events ++ ev)

/-- Lines 83-121: one pass through the loop body. -/
def iteration (env : Env) (state : dataSourcePortWaitType) (diags : Diagnostics)
    (address : String) (endTime : Time) (reads dials : Nat) : Step :=
  if state.TimeoutSec.Value = 0 then
    let r := env.dial dials address none
    (afterDial env state diags address endTime reads dials r).after
      [Event.dial address none r]
  else
    let now := env.clock reads
    let remainingTime := Time.Sub endTime now
    if remainingTime ≤ 0 then
      if state.ErrorOnTimeout.Value then
        Step.done Exit.timeoutReturn state
          (diags.AddError "connection timeout" ("timed out trying to connect to " ++ address))
          [Event.now now]
      else
        Step.done Exit.timeoutBreak state diags [Event.now now]
    else
      let r := env.dial dials address (some remainingTime)
      (afterDial env state diags address endTime (reads + 1) dials r).after
        [Event.now now, Event.dial address (some remainingTime) r]

/-- What a terminated run leaves behind. -/
structure Run where
  exit : Exit
  state : dataSourcePortWaitType
  diags : Diagnostics
  trace : List Event
deriving DecidableEq, Repr

/-- Lines 82-122: the `for` loop, at most `fuel` passes; `none` when the loop
has not been left by then. -/
def loop (env : Env) (state : dataSourcePortWaitType) (diags : Diagnostics)
    (address : String) (endTime : Time) : Nat → Nat → Nat → Option Run
  | 0, _, _ => none
  | fuel + 1, reads, dials =>
    match iteration env state diags address endTime reads dials with
    | Step.done e s d ev => some { exit := e, state := s, diags := d, trace := ev }
    | Step.next reads1 dials1 ev =>
      match loop env state diags address endTime fuel reads1 dials1 with
      | none => none
      | some run => some { run with trace := ev ++ run.trace }

/-- The deadline computed on lines 80-81 from the first clock reading. -/
def endTimeOf (env : Env) (state : dataSourcePortWaitType) : Time :=
  Time.Add (env.clock 0) (durationOf state.TimeoutSec.Value Second)

/-- Lines 77-125: `tryConnect` on the record `state` and the diagnostics
`diags`.  Line 124 is reached by the `break` exits only. -/
def tryConnect (env : Env) (state : dataSourcePortWaitType) (diags : Diagnostics)
    (fuel : Nat) : Option Run :=
  let address := addressOf state
  let startTime := env.clock 0
  let endTime := Time.Add startTime (durationOf state.TimeoutSec.Value Second)
  match loop env state diags address endTime fuel 1 0 with
  | none => none
  | some run =>
    if run.exit.isReturn then
      some { run with trace := Event.now startTime :: run.trace }
    else
      some { run with
        state := { run.state with ID := { Value := address } }
        trace := Event.now startTime :: run.trace }

/-! ## Predicates on traces -/

/-- What holds of each single event of a run: a clock reading is made only
under a timeout and comes from the clock; a dial goes to `address`, returns
what the network returns, without timeout when `timeout_sec` is 0 and
otherwise with the time that remained, positive, at some clock reading; a
sleep is made only for a nonzero cooldown and lasts the cooldown. -/
def EventOK (env : Env) (state : dataSourcePortWaitType) (address : String)
    (endTime : Time) : Event → Prop
  | Event.now t => state.TimeoutSec.Value ≠ 0 ∧ ∃ k, t = env.clock k
  | Event.dial a timeout r =>
    a = address ∧ (∃ k, r = env.dial k a timeout) ∧
    ((state.TimeoutSec.Value = 0 ∧ timeout = none) ∨
      (state.TimeoutSec.Value ≠ 0 ∧
        ∃ k, timeout = some (Time.Sub endTime (env.clock k)) ∧
          0 < Time.Sub endTime (env.clock k)))
  | Event.close _ => True
  | Event.sleep d => cooldownMsOf state ≠ 0 ∧ d = cooldownDurOf state

/-- What holds between an event `x` and the event `y` that comes right after
it.  Under a timeout, a dial comes right after a clock reading `t` taken
before the deadline and its timeout is the time then remaining, and a sleep
of `d` comes right after a clock reading `t` with `t + d` not past the
deadline.  A close comes right after the successful dial whose connection
it closes. -/
def Follows (state : dataSourcePortWaitType) (endTime : Time) : Event → Event → Prop
  | _, Event.now _ => True
  | x, Event.dial _ timeout _ =>
    state.TimeoutSec.Value ≠ 0 →
      ∃ t, x = Event.now t ∧ timeout = some (Time.Sub endTime t) ∧ 0 < Time.Sub endTime t
  | x, Event.sleep d =>
    state.TimeoutSec.Value ≠ 0 → ∃ t, x = Event.now t ∧ t + d ≤ endTime
  | x, Event.close c =>
    ∃ a timeout r, x = Event.dial a timeout r ∧ r.failed = false ∧ r.conn = some c

/-! ## Sample worlds -/

/-- A network on which every dial is refused. -/
def refusing : Nat → String → Option Int → DialResult :=
  fun _ _ _ => { conn := none, err := some "connection refused" }

/-- A network on which every dial is accepted. -/
def accepting : Nat → String → Option Int → DialResult :=
  fun k _ _ => { conn := some k, err := none }

/-- A clock that advances by `step` nanoseconds from one reading to the next. -/
def ticking (step : Int) : Nat → Time :=
  fun k => step * (k : Int)

/-- The request of the first test: unreachable host, one second, error on
timeout. -/
def unreachableError : dataSourcePortWaitType :=
  { Host := { Value := "nonexistent.example.tld" }, Port := { Value := 80 },
    TimeoutSec := { Value := 1 }, ErrorOnTimeout := { Value := true } }

/-- The request of the second test: unreachable host, one second, no error,
cooldown of 10 ms. -/
def unreachableQuiet : dataSourcePortWaitType :=
  { Host := { Value := "nonexistent.example.tld" }, Port := { Value := 22 },
    TimeoutSec := { Value := 1 }, ErrorOnTimeout := { Value := false },
    CooldownMs := { Value := 10 } }

/-- The request of the third test: reachable host, five seconds. -/
def reachable : dataSourcePortWaitType :=
  { Host := { Value := "1.1.1.1" }, Port := { Value := 443 }, TimeoutSec := { Value := 5 } }

/-- The request of the cooldown-overshoot scenario: unreachable host, one
second, error on timeout, and the given `cooldown_ms` field. -/
def overshooting (cooldownMs : TInt64) : dataSourcePortWaitType :=
  { Host := { Value := "nonexistent.example.tld" }, Port := { Value := 80 },
    TimeoutSec := { Value := 1 }, ErrorOnTimeout := { Value := true },
    CooldownMs := cooldownMs }

/-- The run of the second test on a clock that ticks every 400 ms. -/
def quietRun : Run :=
  { exit := Exit.timeoutBreak,
    state := { unreachableQuiet with ID := { Value := "nonexistent.example.tld:22" } },
    diags := [],
    trace := [Event.now 0,
      Event.now 400000000,
      Event.dial "nonexistent.example.tld:22" (some 600000000)
        { conn := none, err := some "connection refused" },
      Event.now 800000000,
      Event.sleep 10000000,
      Event.now 1200000000] }

/-- The run of the first test on a clock that ticks every 400 ms. -/
def errorRun : Run :=
  { exit := Exit.timeoutReturn,
    state := unreachableError,
    diags := [NewErrorDiagnostic "connection timeout"
      "timed out trying to connect to nonexistent.example.tld:80"],
    trace := [Event.now 0,
      Event.now 400000000,
      Event.dial "nonexistent.example.tld:80" (some 600000000)
        { conn := none, err := some "connection refused" },
      Event.now 800000000,
      Event.dial "nonexistent.example.tld:80" (some 200000000)
        { conn := none, err := some "connection refused" },
      Event.now 1200000000] }

/-- The run of the third test on a clock that ticks every 400 ms. -/
def reachableRun : Run :=
  { exit := Exit.connected,
    state := { reachable with
      ID := { Value := "1.1.1.1:443" }, Available := { Value := true } },
    diags := [],
    trace := [Event.now 0,
      Event.now 400000000,
      Event.dial "1.1.1.1:443" (some 4600000000) { conn := some 0, err := none },
      Event.close 0] }

/-- A request without timeout. -/
def patient : dataSourcePortWaitType :=
  { Host := { Value := "127.0.0.1" }, Port := { Value := 4819 },
    ErrorOnTimeout := { Value := true }, CooldownMs := { Null := true } }

/-- A network that refuses the first two dials and accepts from the third. -/
def lateAccepting : Nat → String → Option Int → DialResult :=
  fun k _ _ => if k < 2 then { conn := none, err := some "connection refused" }
    else { conn := some k, err := none }

/-- The run of `patient` on `lateAccepting`. -/
def patientRun : Run :=
  { exit := Exit.connected,
    state := { patient with
      ID := { Value := "127.0.0.1:4819" }, Available := { Value := true } },
    diags := [],
    trace := [Event.now 0,
      Event.dial "127.0.0.1:4819" none { conn := none, err := some "connection refused" },
      Event.sleep 500000000,
      Event.dial "127.0.0.1:4819" none { conn := none, err := some "connection refused" },
      Event.sleep 500000000,
      Event.dial "127.0.0.1:4819" none { conn := some 2, err := none },
      Event.close 2] }

/-- A clock that stands at 0 for its first three readings and at one second
from then on. -/
def jumping : Nat → Time :=
  fun k => if k < 3 then 0 else 1000000000

/-- The run of `overshooting` with `cooldown_ms = 2000` on a clock that ticks
every microsecond. -/
def overshootRun : Run :=
  { exit := Exit.cooldownReturn,
    state := overshooting { Value := 2000 },
    diags := [NewErrorDiagnostic "connection timeout"
      "prematurely timed out trying to connect to nonexistent.example.tld:80 (cooldown skipped)"],
    trace := [Event.now 0,
      Event.now 1000,
      Event.dial "nonexistent.example.tld:80" (some 999999000)
        { conn := none, err := some "connection refused" },
      Event.now 2000] }

/-! ## The loop: unfolding, fuel, final pass -/

theorem loop_zero (env : Env) (state : dataSourcePortWaitType) (diags : Diagnostics)
    (address : String) (endTime : Time) (reads dials : Nat) :
    loop env state diags address endTime 0 reads dials = none := rfl

theorem loop_succ (env : Env) (state : dataSourcePortWaitType) (diags : Diagnostics)
    (address : String) (endTime : Time) (fuel reads dials : Nat) :
    loop env state diags address endTime (fuel + 1) reads dials =
      match iteration env state diags address endTime reads dials with
      | Step.done e s d ev => some { exit := e, state := s, diags := d, trace := ev }
      | Step.next reads1 dials1 ev =>
        match loop env state diags address endTime fuel reads1 dials1 with
        | none => none
        | some run => some { run with trace := ev ++ run.trace } := rfl

/-- More fuel does not change the result of a run that has terminated. -/
theorem loop_mono (env : Env) (state : dataSourcePortWaitType) (diags : Diagnostics)
    (address : String) (endTime : Time) (fuel : Nat) :
    ∀ (reads dials : Nat) (run : Run),
      loop env state diags address endTime fuel reads dials = some run →
      ∀ fuel1, fuel ≤ fuel1 →
        loop env state diags address endTime fuel1 reads dials = some run := by
  induction fuel with
  | zero => intro reads dials run h; simp [loop_zero] at h
  | succ n ih =>
    intro reads dials run h fuel1 hle
    obtain ⟨m, rfl⟩ : ∃ m, fuel1 = m + 1 := ⟨fuel1 - 1, by omega⟩
    rw [loop_succ] at h ⊢
    cases hit : iteration env state diags address endTime reads dials with
    | done e s d ev => rw [hit] at h; simpa using h
    | next r k ev =>
      rw [hit] at h
      simp only at h ⊢
      cases hl : loop env state diags address endTime n r k with
      | none => rw [hl] at h; simp at h
      | some run1 =>
        rw [hl] at h
        rw [ih r k run1 hl m (by omega)]
        simpa using h

/-- Induction over the passes of a terminated run: a property of event lists
that holds of the events of every final pass, and is kept when the events of
a non-final pass are put in front, holds of the trace; the record, the
diagnostics and the exit are those of the final pass. -/
theorem loop_induction (env : Env) (state : dataSourcePortWaitType) (diags : Diagnostics)
    (address : String) (endTime : Time) (P : Nat → Nat → Run → Prop)
    (hdone : ∀ reads dials e s d ev,
      iteration env state diags address endTime reads dials = Step.done e s d ev →
      P reads dials { exit := e, state := s, diags := d, trace := ev })
    (hnext : ∀ reads dials reads1 dials1 ev run,
      iteration env state diags address endTime reads dials = Step.next reads1 dials1 ev →
      P reads1 dials1 run → P reads dials { run with trace := ev ++ run.trace }) :
    ∀ (fuel reads dials : Nat) (run : Run),
      loop env state diags address endTime fuel reads dials = some run → P reads dials run := by
  intro fuel
  induction fuel with
  | zero => intro reads dials run h; simp [loop_zero] at h
  | succ n ih =>
    intro reads dials run h
    rw [loop_succ] at h
    cases hit : iteration env state diags address endTime reads dials with
    | done e s d ev =>
      rw [hit] at h
      simp only [Option.some.injEq] at h
      subst h
      exact hdone reads dials e s d ev hit
    | next r k ev =>
      rw [hit] at h
      simp only at h
      cases hl : loop env state diags address endTime n r k with
      | none => rw [hl] at h; simp at h
      | some run1 =>
        rw [hl] at h
        simp only [Option.some.injEq] at h
        subst h
        exact hnext reads dials r k ev run1 hit (ih r k run1 hl)

/-- Unfolding of `tryConnect` on a terminated run. -/
theorem tryConnect_some (env : Env) (state : dataSourcePortWaitType) (diags : Diagnostics)
    (fuel : Nat) (r : Run) (h : tryConnect env state diags fuel = some r) :
    ∃ run, loop env state diags (addressOf state) (endTimeOf env state) fuel 1 0 = some run ∧
      r.exit = run.exit ∧ r.diags = run.diags ∧
      r.trace = Event.now (env.clock 0) :: run.trace ∧
      r.state = (if run.exit.isReturn then run.state
        else { run.state with ID := { Value := addressOf state } }) := by
  unfold tryConnect at h
  simp only at h
  cases hl : loop env state diags (addressOf state)
      (Time.Add (env.clock 0) (durationOf state.TimeoutSec.Value Second)) fuel 1 0 with
  | none => rw [hl] at h; simp at h
  | some run =>
    rw [hl] at h
    refine ⟨run, hl, ?_⟩
    cases hr : run.exit.isReturn with
    | true =>
      simp only [hr, if_true, Option.some.injEq] at h
      subst h
      simp [hr]
    | false =>
      simp only [hr, Bool.false_eq_true, if_false, Option.some.injEq] at h
      subst h
      simp [hr]

/-! ## One pass through the loop body -/

/-- A failed dial has no close to make; a successful one has a connection. -/
theorem DialResult.conn_of_not_failed (r : DialResult) (h : r.failed = false) :
    ∃ c, r.conn = some c := by
  unfold DialResult.failed at h
  cases hc : r.conn with
  | none => simp [hc] at h
  | some c => exact ⟨c, rfl⟩

/-- Inversion of `afterDial` when the loop is left. -/
theorem afterDial_done (env : Env) (state : dataSourcePortWaitType) (diags : Diagnostics)
    (address : String) (endTime : Time) (reads dials : Nat) (r : DialResult)
    (e : Exit) (s : dataSourcePortWaitType) (d : Diagnostics) (ev : List Event)
    (h : afterDial env state diags address endTime reads dials r = Step.done e s d ev) :
    (r.failed = false ∧ e = Exit.connected ∧
      s = { state with Available := { Value := true } } ∧ d = diags ∧
      ∃ c, r.conn = some c ∧ ev = [Event.close c]) ∨
    (r.failed = true ∧ cooldownMsOf state ≠ 0 ∧ state.TimeoutSec.Value ≠ 0 ∧
      Time.After (Time.Add (env.clock reads) (cooldownDurOf state)) endTime = true ∧
      s = state ∧ ev = [Event.now (env.clock reads)] ∧
      ((state.ErrorOnTimeout.Value = true ∧ e = Exit.cooldownReturn ∧
          d = diags.AddError "connection timeout"
            ("prematurely timed out trying to connect to " ++ address ++ " (cooldown skipped)")) ∨
        (state.ErrorOnTimeout.Value = false ∧ e = Exit.cooldownBreak ∧ d = diags))) := by
  unfold afterDial at h
  by_cases hf : r.failed = true
  · right
    simp only [hf, if_true] at h
    split_ifs at h with h1 h2 h3 h4
    · simp only [Step.done.injEq] at h
      obtain ⟨rfl, rfl, rfl, rfl⟩ := h
      exact ⟨hf, h1, h2, h3, rfl, rfl, Or.inl ⟨h4, rfl, rfl⟩⟩
    · simp only [Step.done.injEq] at h
      obtain ⟨rfl, rfl, rfl, rfl⟩ := h
      exact ⟨hf, h1, h2, h3, rfl, rfl, Or.inr ⟨by simpa using h4, rfl, rfl⟩⟩
  · left
    have hf0 : r.failed = false := by simpa using hf
    simp only [hf0, Bool.false_eq_true, if_false, Step.done.injEq] at h
    obtain ⟨rfl, rfl, rfl, rfl⟩ := h
    obtain ⟨c, hc⟩ := r.conn_of_not_failed hf0
    exact ⟨hf0, rfl, rfl, rfl, c, hc, by simp [hc]⟩

/-- Inversion of `afterDial` when the loop goes round again. -/
theorem afterDial_next (env : Env) (state : dataSourcePortWaitType) (diags : Diagnostics)
    (address : String) (endTime : Time) (reads dials : Nat) (r : DialResult)
    (reads1 dials1 : Nat) (ev : List Event)
    (h : afterDial env state diags address endTime reads dials r = Step.next reads1 dials1 ev) :
    r.failed = true ∧ dials1 = dials + 1 ∧
    ((cooldownMsOf state = 0 ∧ reads1 = reads ∧ ev = []) ∨
      (cooldownMsOf state ≠ 0 ∧ state.TimeoutSec.Value = 0 ∧ reads1 = reads ∧
        ev = [Event.sleep (cooldownDurOf state)]) ∨
      (cooldownMsOf state ≠ 0 ∧ state.TimeoutSec.Value ≠ 0 ∧
        Time.After (Time.Add (env.clock reads) (cooldownDurOf state)) endTime = false ∧
        reads1 = reads + 1 ∧
        ev = [Event.now (env.clock reads), Event.sleep (cooldownDurOf state)])) := by
  unfold afterDial at h
  by_cases hf : r.failed = true
  · simp only [hf, if_true] at h
    split_ifs at h with h1 h2 h3
    · simp only [Step.next.injEq] at h
      obtain ⟨rfl, rfl, rfl⟩ := h
      exact ⟨hf, rfl, Or.inr (Or.inr ⟨h1, h2, by simpa using h3, rfl, rfl⟩)⟩
    · simp only [Step.next.injEq] at h
      obtain ⟨rfl, rfl, rfl⟩ := h
      exact ⟨hf, rfl, Or.inr (Or.inl ⟨h1, by simpa using h2, rfl, rfl⟩)⟩
    · simp only [Step.next.injEq] at h
      obtain ⟨rfl, rfl, rfl⟩ := h
      exact ⟨hf, rfl, Or.inl ⟨by simpa using h1, rfl, rfl⟩⟩
  · have hf0 : r.failed = false := by simpa using hf
    simp [hf0] at h

/-- Inversion of `iteration` when the loop is left: the five exits. -/
theorem iteration_done (env : Env) (state : dataSourcePortWaitType) (diags : Diagnostics)
    (address : String) (endTime : Time) (reads dials : Nat)
    (e : Exit) (s : dataSourcePortWaitType) (d : Diagnostics) (ev : List Event)
    (h : iteration env state diags address endTime reads dials = Step.done e s d ev) :
    (e = Exit.connected ∧ s = { state with Available := { Value := true } } ∧ d = diags ∧
      ∃ c, ((state.TimeoutSec.Value = 0 ∧
            (env.dial dials address none).failed = false ∧
            (env.dial dials address none).conn = some c ∧
            ev = [Event.dial address none (env.dial dials address none), Event.close c]) ∨
          (state.TimeoutSec.Value ≠ 0 ∧ 0 < Time.Sub endTime (env.clock reads) ∧
            (env.dial dials address (some (Time.Sub endTime (env.clock reads)))).failed = false ∧
            (env.dial dials address (some (Time.Sub endTime (env.clock reads)))).conn = some c ∧
            ev = [Event.now (env.clock reads),
              Event.dial address (some (Time.Sub endTime (env.clock reads)))
                (env.dial dials address (some (Time.Sub endTime (env.clock reads)))),
              Event.close c]))) ∨
    (state.TimeoutSec.Value ≠ 0 ∧ Time.Sub endTime (env.clock reads) ≤ 0 ∧ s = state ∧
      ev = [Event.now (env.clock reads)] ∧
      ((state.ErrorOnTimeout.Value = true ∧ e = Exit.timeoutReturn ∧
          d = diags.AddError "connection timeout" ("timed out trying to connect to " ++ address)) ∨
        (state.ErrorOnTimeout.Value = false ∧ e = Exit.timeoutBreak ∧ d = diags))) ∨
    (state.TimeoutSec.Value ≠ 0 ∧ 0 < Time.Sub endTime (env.clock reads) ∧
      (env.dial dials address (some (Time.Sub endTime (env.clock reads)))).failed = true ∧
      cooldownMsOf state ≠ 0 ∧
      Time.After (Time.Add (env.clock (reads + 1)) (cooldownDurOf state)) endTime = true ∧
      s = state ∧
      ev = [Event.now (env.clock reads),
        Event.dial address (some (Time.Sub endTime (env.clock reads)))
          (env.dial dials address (some (Time.Sub endTime (env.clock reads)))),
        Event.now (env.clock (reads + 1))] ∧
      ((state.ErrorOnTimeout.Value = true ∧ e = Exit.cooldownReturn ∧
          d = diags.AddError "connection timeout"
            ("prematurely timed out trying to connect to " ++ address ++ " (cooldown skipped)")) ∨
        (state.ErrorOnTimeout.Value = false ∧ e = Exit.cooldownBreak ∧ d = diags))) := by
  unfold iteration at h
  by_cases ht : state.TimeoutSec.Value = 0
  · simp only [ht, if_true] at h
    cases ha : afterDial env state diags address endTime reads dials
        (env.dial dials address none) with
    | next r1 k1 ev1 => rw [ha] at h; simp [Step.after] at h
    | done e1 s1 d1 ev1 =>
      rw [ha] at h
      simp only [Step.after, Step.done.injEq] at h
      obtain ⟨rfl, rfl, rfl, rfl⟩ := h
      rcases afterDial_done _ _ _ _ _ _ _ _ _ _ _ _ ha with
        ⟨hf, rfl, rfl, rfl, c, hc, rfl⟩ | ⟨_, _, hne, _⟩
      · exact Or.inl ⟨rfl, rfl, rfl, c, Or.inl ⟨ht, hf, hc, rfl⟩⟩
      · exact absurd ht hne
  · simp only [ht, if_false] at h
    by_cases hrem : Time.Sub endTime (env.clock reads) ≤ 0
    · simp only [hrem, if_true] at h
      right; left
      split_ifs at h with he
      · simp only [Step.done.injEq] at h
        obtain ⟨rfl, rfl, rfl, rfl⟩ := h
        exact ⟨ht, hrem, rfl, rfl, Or.inl ⟨he, rfl, rfl⟩⟩
      · simp only [Step.done.injEq] at h
        obtain ⟨rfl, rfl, rfl, rfl⟩ := h
        exact ⟨ht, hrem, rfl, rfl, Or.inr ⟨by simpa using he, rfl, rfl⟩⟩
    · simp only [hrem, if_false] at h
      have hpos : 0 < Time.Sub endTime (env.clock reads) := not_le.mp hrem
      cases ha : afterDial env state diags address endTime (reads + 1) dials
          (env.dial dials address (some (Time.Sub endTime (env.clock reads)))) with
      | next r1 k1 ev1 => rw [ha] at h; simp [Step.after] at h
      | done e1 s1 d1 ev1 =>
        rw [ha] at h
        simp only [Step.after, Step.done.injEq] at h
        obtain ⟨rfl, rfl, rfl, rfl⟩ := h
        rcases afterDial_done _ _ _ _ _ _ _ _ _ _ _ _ ha with
          ⟨hf, rfl, rfl, rfl, c, hc, rfl⟩ | ⟨hf, hcd, _, hafter, rfl, rfl, hrest⟩
        · exact Or.inl ⟨rfl, rfl, rfl, c, Or.inr ⟨ht, hpos, hf, hc, rfl⟩⟩
        · exact Or.inr (Or.inr ⟨ht, hpos, hf, hcd, hafter, rfl, rfl, hrest⟩)

/-- Inversion of `iteration` when the loop goes round again. -/
theorem iteration_next (env : Env) (state : dataSourcePortWaitType) (diags : Diagnostics)
    (address : String) (endTime : Time) (reads dials : Nat)
    (reads1 dials1 : Nat) (ev : List Event)
    (h : iteration env state diags address endTime reads dials = Step.next reads1 dials1 ev) :
    dials1 = dials + 1 ∧
    ((state.TimeoutSec.Value = 0 ∧ (env.dial dials address none).failed = true ∧
        reads1 = reads ∧
        ((cooldownMsOf state = 0 ∧
            ev = [Event.dial address none (env.dial dials address none)]) ∨
          (cooldownMsOf state ≠ 0 ∧
            ev = [Event.dial address none (env.dial dials address none),
              Event.sleep (cooldownDurOf state)]))) ∨
      (state.TimeoutSec.Value ≠ 0 ∧ 0 < Time.Sub endTime (env.clock reads) ∧
        (env.dial dials address (some (Time.Sub endTime (env.clock reads)))).failed = true ∧
        ((cooldownMsOf state = 0 ∧ reads1 = reads + 1 ∧
            ev = [Event.now (env.clock reads),
              Event.dial address (some (Time.Sub endTime (env.clock reads)))
                (env.dial dials address (some (Time.Sub endTime (env.clock reads))))]) ∨
          (cooldownMsOf state ≠ 0 ∧
            Time.After (Time.Add (env.clock (reads + 1)) (cooldownDurOf state)) endTime = false ∧
            reads1 = reads + 2 ∧
            ev = [Event.now (env.clock reads),
              Event.dial address (some (Time.Sub endTime (env.clock reads)))
                (env.dial dials address (some (Time.Sub endTime (env.clock reads)))),
              Event.now (env.clock (reads + 1)),
              Event.sleep (cooldownDurOf state)])))) := by
  unfold iteration at h
  by_cases ht : state.TimeoutSec.Value = 0
  · simp only [ht, if_true] at h
    cases ha : afterDial env state diags address endTime reads dials
        (env.dial dials address none) with
    | done e1 s1 d1 ev1 => rw [ha] at h; simp [Step.after] at h
    | next r1 k1 ev1 =>
      rw [ha] at h
      simp only [Step.after, Step.next.injEq] at h
      obtain ⟨rfl, rfl, rfl⟩ := h
      rcases afterDial_next _ _ _ _ _ _ _ _ _ _ _ ha with
        ⟨hf, rfl, ⟨hcd, rfl, rfl⟩ | ⟨hcd, _, rfl, rfl⟩ | ⟨_, hne, _⟩⟩
      · exact ⟨rfl, Or.inl ⟨ht, hf, rfl, Or.inl ⟨hcd, rfl⟩⟩⟩
      · exact ⟨rfl, Or.inl ⟨ht, hf, rfl, Or.inr ⟨hcd, rfl⟩⟩⟩
      · exact absurd ht hne
  · simp only [ht, if_false] at h
    by_cases hrem : Time.Sub endTime (env.clock reads) ≤ 0
    · simp only [hrem, if_true] at h
      split_ifs at h
    · simp only [hrem, if_false] at h
      have hpos : 0 < Time.Sub endTime (env.clock reads) := not_le.mp hrem
      cases ha : afterDial env state diags address endTime (reads + 1) dials
          (env.dial dials address (some (Time.Sub endTime (env.clock reads)))) with
      | done e1 s1 d1 ev1 => rw [ha] at h; simp [Step.after] at h
      | next r1 k1 ev1 =>
        rw [ha] at h
        simp only [Step.after, Step.next.injEq] at h
        obtain ⟨rfl, rfl, rfl⟩ := h
        rcases afterDial_next _ _ _ _ _ _ _ _ _ _ _ ha with
          ⟨hf, rfl, ⟨hcd, rfl, rfl⟩ | ⟨_, h0, _⟩ | ⟨hcd, _, hafter, rfl, rfl⟩⟩
        · exact ⟨rfl, Or.inr ⟨ht, hpos, hf, Or.inl ⟨hcd, rfl, rfl⟩⟩⟩
        · exact absurd h0 ht
        · exact ⟨rfl, Or.inr ⟨ht, hpos, hf, Or.inr ⟨hcd, hafter, rfl, rfl⟩⟩⟩

/-! ## Terminated runs -/

/-- A terminated loop ends in a final pass; the passes before it hold no
successful dial, no close, and the dial count only grows. -/
theorem loop_final (env : Env) (state : dataSourcePortWaitType) (diags : Diagnostics)
    (address : String) (endTime : Time) (fuel reads dials : Nat) (run : Run)
    (h : loop env state diags address endTime fuel reads dials = some run) :
    ∃ pre reads1 dials1 ev,
      run.trace = pre ++ ev ∧
      iteration env state diags address endTime reads1 dials1 =
        Step.done run.exit run.state run.diags ev ∧
      reads ≤ reads1 ∧ dials ≤ dials1 ∧
      ∀ x ∈ pre, x.isSuccess = false ∧ x.isClose = false := by
  refine loop_induction env state diags address endTime
    (fun reads dials run => ∃ pre reads1 dials1 ev,
      run.trace = pre ++ ev ∧
      iteration env state diags address endTime reads1 dials1 =
        Step.done run.exit run.state run.diags ev ∧
      reads ≤ reads1 ∧ dials ≤ dials1 ∧
      ∀ x ∈ pre, x.isSuccess = false ∧ x.isClose = false) ?_ ?_ fuel reads dials run h
  · intro reads dials e s d ev hit
    exact ⟨[], reads, dials, ev, rfl, hit, le_refl _, le_refl _, by simp⟩
  · intro reads dials reads1 dials1 ev run hit ⟨pre, r2, k2, ev2, htr, hfin, hr, hk, hpre⟩
    refine ⟨ev ++ pre, r2, k2, ev2, by simp [htr], hfin, ?_, ?_, ?_⟩
    · rcases iteration_next _ _ _ _ _ _ _ _ _ _ hit with
        ⟨_, ⟨_, _, rfl, _⟩ | ⟨_, _, _, ⟨_, rfl, _⟩ | ⟨_, _, rfl, _⟩⟩⟩ <;> omega
    · have := (iteration_next _ _ _ _ _ _ _ _ _ _ hit).1
      omega
    · intro x hx
      rcases List.mem_append.mp hx with hx | hx
      · rcases iteration_next _ _ _ _ _ _ _ _ _ _ hit with
          ⟨_, ⟨_, hf, _, ⟨_, rfl⟩ | ⟨_, rfl⟩⟩ | ⟨_, _, hf, ⟨_, _, rfl⟩ | ⟨_, _, _, rfl⟩⟩⟩ <;>
        · simp only [List.mem_cons, List.mem_singleton, List.not_mem_nil, or_false] at hx
          rcases hx with rfl | rfl | rfl | rfl <;> simp [Event.isSuccess, Event.isClose, hf]
      · exact hpre x hx

/-- Adding an error leaves a collection that has an error. -/
theorem Diagnostics.hasError_addError (diags : Diagnostics) (summary detail : String) :
    (diags.AddError summary detail).HasError = true := by
  unfold Diagnostics.AddError Diagnostics.Append
  split_ifs with hc
  · unfold Diagnostics.Contains at hc
    unfold Diagnostics.HasError
    rw [List.any_eq_true] at hc ⊢
    obtain ⟨x, hx, hxd⟩ := hc
    have : x = NewErrorDiagnostic summary detail := by simpa using hxd
    exact ⟨x, hx, by simp [this, NewErrorDiagnostic]⟩
  · unfold Diagnostics.HasError
    simp [NewErrorDiagnostic]

/-- On a collection without error, adding an error puts it at the end. -/
theorem Diagnostics.addError_eq (diags : Diagnostics) (summary detail : String)
    (h : diags.HasError = false) :
    diags.AddError summary detail = diags ++ [NewErrorDiagnostic summary detail] := by
  unfold Diagnostics.AddError Diagnostics.Append
  split_ifs with hc
  · exfalso
    unfold Diagnostics.Contains at hc
    rw [List.any_eq_true] at hc
    obtain ⟨x, hx, hxd⟩ := hc
    have hx2 : x = NewErrorDiagnostic summary detail := by simpa using hxd
    have : diags.HasError = true := by
      unfold Diagnostics.HasError
      rw [List.any_eq_true]
      exact ⟨x, hx, by simp [hx2, NewErrorDiagnostic]⟩
    rw [h] at this
    exact Bool.false_ne_true this
  · rfl

/-- The record, the diagnostics and the exit of a terminated run. -/
theorem tryConnect_final (env : Env) (state : dataSourcePortWaitType) (diags : Diagnostics)
    (fuel : Nat) (r : Run) (h : tryConnect env state diags fuel = some r) :
    (r.exit = Exit.connected ∧ r.diags = diags ∧
      r.state = { state with ID := { Value := addressOf state }, Available := { Value := true } }) ∨
    (r.exit = Exit.timeoutBreak ∧ r.diags = diags ∧ state.TimeoutSec.Value ≠ 0 ∧
      state.ErrorOnTimeout.Value = false ∧
      r.state = { state with ID := { Value := addressOf state } }) ∨
    (r.exit = Exit.cooldownBreak ∧ r.diags = diags ∧ state.TimeoutSec.Value ≠ 0 ∧
      state.ErrorOnTimeout.Value = false ∧ cooldownMsOf state ≠ 0 ∧
      r.state = { state with ID := { Value := addressOf state } }) ∨
    (r.exit = Exit.timeoutReturn ∧ state.TimeoutSec.Value ≠ 0 ∧
      state.ErrorOnTimeout.Value = true ∧ r.state = state ∧
      r.diags = diags.AddError "connection timeout"
        ("timed out trying to connect to " ++ addressOf state)) ∨
    (r.exit = Exit.cooldownReturn ∧ state.TimeoutSec.Value ≠ 0 ∧
      state.ErrorOnTimeout.Value = true ∧ cooldownMsOf state ≠ 0 ∧ r.state = state ∧
      r.diags = diags.AddError "connection timeout"
        ("prematurely timed out trying to connect to " ++ addressOf state ++
          " (cooldown skipped)")) := by
  obtain ⟨run, hl, hexit, hdiags, _, hstate⟩ := tryConnect_some env state diags fuel r h
  obtain ⟨pre, r1, k1, ev, _, hfin, _⟩ := loop_final _ _ _ _ _ _ _ _ _ hl
  rcases iteration_done _ _ _ _ _ _ _ _ _ _ _ hfin with
    ⟨he, hs, hd, _⟩ | ⟨ht, _, hs, _, ⟨heo, he, hd⟩ | ⟨heo, he, hd⟩⟩ |
    ⟨ht, _, _, hcd, _, hs, _, ⟨heo, he, hd⟩ | ⟨heo, he, hd⟩⟩
  · left
    rw [he] at hstate
    exact ⟨hexit.trans he, hdiags.trans hd, by rw [hstate, hs]; simp [Exit.isReturn]⟩
  · right; right; right; left
    rw [he] at hstate
    exact ⟨hexit.trans he, ht, heo, by rw [hstate, hs]; simp [Exit.isReturn], hdiags.trans hd⟩
  · right; left
    rw [he] at hstate
    exact ⟨hexit.trans he, hdiags.trans hd, ht, heo, by rw [hstate, hs]; simp [Exit.isReturn]⟩
  · right; right; right; right
    rw [he] at hstate
    exact ⟨hexit.trans he, ht, heo, hcd, by rw [hstate, hs]; simp [Exit.isReturn],
      hdiags.trans hd⟩
  · right; right; left
    rw [he] at hstate
    exact ⟨hexit.trans he, hdiags.trans hd, ht, heo, hcd,
      by rw [hstate, hs]; simp [Exit.isReturn]⟩

/-- Every event of a terminated loop is as `EventOK` says. -/
theorem loop_events (env : Env) (state : dataSourcePortWaitType) (diags : Diagnostics)
    (address : String) (endTime : Time) (fuel reads dials : Nat) (run : Run)
    (h : loop env state diags address endTime fuel reads dials = some run) :
    ∀ x ∈ run.trace, EventOK env state address endTime x := by
  refine loop_induction env state diags address endTime
    (fun _ _ run => ∀ x ∈ run.trace, EventOK env state address endTime x)
    ?_ ?_ fuel reads dials run h
  · intro reads dials e s d ev hit x hx
    simp only at hx
    rcases iteration_done _ _ _ _ _ _ _ _ _ _ _ hit with
      ⟨_, _, _, c, ⟨ht, _, _, rfl⟩ | ⟨ht, hpos, _, _, rfl⟩⟩ | ⟨ht, _, _, rfl, _⟩ |
      ⟨ht, hpos, _, _, _, _, rfl, _⟩ <;>
    · simp only [List.mem_cons, List.mem_singleton, List.not_mem_nil, or_false] at hx
      rcases hx with rfl | rfl | rfl <;>
        simp only [EventOK, ne_eq, ht, not_false_eq_true, not_true_eq_false, true_and,
          false_and, and_true, or_false, false_or, exists_apply_eq_apply, and_self]
      all_goals first
        | trivial
        | exact ⟨_, rfl⟩
        | exact ⟨⟨_, rfl⟩, _, rfl, hpos⟩
  · intro reads dials reads1 dials1 ev run hit ih x hx
    rcases List.mem_append.mp hx with hx | hx
    · rcases iteration_next _ _ _ _ _ _ _ _ _ _ hit with
        ⟨_, ⟨ht, _, _, ⟨_, rfl⟩ | ⟨hcd, rfl⟩⟩ |
          ⟨ht, hpos, _, ⟨_, _, rfl⟩ | ⟨hcd, _, _, rfl⟩⟩⟩ <;>
      · simp only [List.mem_cons, List.mem_singleton, List.not_mem_nil, or_false] at hx
        rcases hx with rfl | rfl | rfl | rfl <;>
          simp only [EventOK, ne_eq, ht, not_false_eq_true, not_true_eq_false, true_and,
            false_and, and_true, or_false, false_or, exists_apply_eq_apply, and_self]
        all_goals first
          | trivial
          | exact hcd
          | exact ⟨_, rfl⟩
          | exact ⟨⟨_, rfl⟩, _, rfl, hpos⟩
    · exact ih x hx

/-- Each two consecutive events of a terminated loop are as `Follows` says,
whatever event came before the loop. -/
theorem loop_chain (env : Env) (state : dataSourcePortWaitType) (diags : Diagnostics)
    (address : String) (endTime : Time) (fuel reads dials : Nat) (run : Run)
    (h : loop env state diags address endTime fuel reads dials = some run) :
    ∀ x, List.Chain (Follows state endTime) x run.trace := by
  refine loop_induction env state diags address endTime
    (fun _ _ run => ∀ x, List.Chain (Follows state endTime) x run.trace)
    ?_ ?_ fuel reads dials run h
  · intro reads dials e s d ev hit x
    rcases iteration_done _ _ _ _ _ _ _ _ _ _ _ hit with
      ⟨_, _, _, c, ⟨ht, hf, hc, rfl⟩ | ⟨ht, hpos, hf, hc, rfl⟩⟩ | ⟨ht, _, _, rfl, _⟩ |
      ⟨ht, hpos, _, _, _, _, rfl, _⟩
    · simp only [List.chain_cons, List.Chain.nil, and_true, Follows]
      exact ⟨fun hne => absurd ht hne, _, _, _, rfl, hf, hc⟩
    · simp only [List.chain_cons, List.Chain.nil, and_true, Follows, true_and]
      exact ⟨fun _ => ⟨_, rfl, rfl, hpos⟩, _, _, _, rfl, hf, hc⟩
    · simp [Follows]
    · simp only [List.chain_cons, List.Chain.nil, and_true, Follows, true_and]
      exact fun _ => ⟨_, rfl, rfl, hpos⟩
  · intro reads dials reads1 dials1 ev run hit ih x
    rcases iteration_next _ _ _ _ _ _ _ _ _ _ hit with
      ⟨_, ⟨ht, _, _, ⟨_, rfl⟩ | ⟨hcd, rfl⟩⟩ |
        ⟨ht, hpos, _, ⟨_, _, rfl⟩ | ⟨hcd, hafter, _, rfl⟩⟩⟩
    · simp only [List.singleton_append, List.chain_cons, Follows]
      exact ⟨fun hne => absurd ht hne, ih _⟩
    · simp only [List.cons_append, List.nil_append, List.chain_cons, Follows]
      exact ⟨fun hne => absurd ht hne, fun hne => absurd ht hne, ih _⟩
    · simp only [List.cons_append, List.nil_append, List.chain_cons, Follows, true_and]
      exact ⟨fun _ => ⟨_, rfl, rfl, hpos⟩, ih _⟩
    · simp only [List.cons_append, List.nil_append, List.chain_cons, Follows, true_and]
      refine ⟨fun _ => ⟨_, rfl, rfl, hpos⟩, fun _ => ⟨_, rfl, ?_⟩, ih _⟩
      simpa [Time.After, Time.Add] using hafter

/-- A run that did not end on a connection holds no successful dial and no
close; a run that did ends with the successful dial and the close of its
connection, and holds no other successful dial and no other close. -/
theorem loop_trace (env : Env) (state : dataSourcePortWaitType) (diags : Diagnostics)
    (address : String) (endTime : Time) (fuel reads dials : Nat) (run : Run)
    (h : loop env state diags address endTime fuel reads dials = some run) :
    (run.exit ≠ Exit.connected ∧ ∀ x ∈ run.trace, x.isSuccess = false ∧ x.isClose = false) ∨
    (run.exit = Exit.connected ∧
      ∃ pre timeout res c,
        run.trace = pre ++ [Event.dial address timeout res, Event.close c] ∧
        (∃ k, res = env.dial k address timeout) ∧
        res.failed = false ∧ res.conn = some c ∧
        ∀ x ∈ pre, x.isSuccess = false ∧ x.isClose = false) := by
  obtain ⟨pre, r1, k1, ev, htr, hfin, _, _, hpre⟩ := loop_final _ _ _ _ _ _ _ _ _ h
  rcases iteration_done _ _ _ _ _ _ _ _ _ _ _ hfin with
    ⟨he, _, _, c, ⟨_, hf, hc, rfl⟩ | ⟨_, _, hf, hc, rfl⟩⟩ |
    ⟨_, hf, _, rfl, ⟨_, he, _⟩ | ⟨_, he, _⟩⟩ |
    ⟨_, _, hf, _, _, _, rfl, ⟨_, he, _⟩ | ⟨_, he, _⟩⟩
  · exact Or.inr ⟨he, pre, _, _, c, htr, ⟨k1, rfl⟩, hf, hc, hpre⟩
  · refine Or.inr ⟨he, pre ++ [Event.now (env.clock r1)],
      some (Time.Sub endTime (env.clock r1)), _, c, by simp [htr], ⟨k1, rfl⟩, hf, hc, ?_⟩
    intro x hx
    rcases List.mem_append.mp hx with hx | hx
    · exact hpre x hx
    · simp only [List.mem_singleton] at hx
      subst hx
      simp [Event.isSuccess, Event.isClose]
  all_goals
    refine Or.inl ⟨by rw [he]; decide, ?_⟩
    intro x hx
    rw [htr] at hx
    rcases List.mem_append.mp hx with hx | hx
    · exact hpre x hx
    · simp only [List.mem_cons, List.mem_singleton, List.not_mem_nil, or_false] at hx
      rcases hx with rfl | rfl | rfl <;> simp [Event.isSuccess, Event.isClose, hf]

/-- The trace of a terminated run of `tryConnect`: the first reading of the
clock, then the trace of the loop. -/
theorem tryConnect_trace (env : Env) (state : dataSourcePortWaitType) (diags : Diagnostics)
    (fuel : Nat) (r : Run) (h : tryConnect env state diags fuel = some r) :
    (r.exit ≠ Exit.connected ∧ ∀ x ∈ r.trace, x.isSuccess = false ∧ x.isClose = false) ∨
    (r.exit = Exit.connected ∧
      ∃ pre timeout res c,
        r.trace = pre ++ [Event.dial (addressOf state) timeout res, Event.close c] ∧
        (∃ k, res = env.dial k (addressOf state) timeout) ∧
        res.failed = false ∧ res.conn = some c ∧
        ∀ x ∈ pre, x.isSuccess = false ∧ x.isClose = false) := by
  obtain ⟨run, hl, hexit, _, htr, _⟩ := tryConnect_some env state diags fuel r h
  rcases loop_trace _ _ _ _ _ _ _ _ _ hl with ⟨hne, hall⟩ | ⟨he, pre, tmo, res, c, hrun, hk, hf, hc, hpre⟩
  · refine Or.inl ⟨by rw [hexit]; exact hne, ?_⟩
    intro x hx
    rw [htr] at hx
    rcases List.mem_cons.mp hx with rfl | hx
    · simp [Event.isSuccess, Event.isClose]
    · exact hall x hx
  · refine Or.inr ⟨hexit.trans he, Event.now (env.clock 0) :: pre, tmo, res, c,
      by simp [htr, hrun], hk, hf, hc, ?_⟩
    intro x hx
    rcases List.mem_cons.mp hx with rfl | hx
    · simp [Event.isSuccess, Event.isClose]
    · exact hpre x hx

/-- A pass whose dial succeeds leaves the loop on line 121, having closed
the connection. -/
theorem iteration_connected (env : Env) (state : dataSourcePortWaitType)
    (diags : Diagnostics) (address : String) (endTime : Time) (reads dials : Nat) :
    (state.TimeoutSec.Value = 0 → (env.dial dials address none).failed = false →
      ∃ c, (env.dial dials address none).conn = some c ∧
        iteration env state diags address endTime reads dials =
          Step.done Exit.connected { state with Available := { Value := true } } diags
            [Event.dial address none (env.dial dials address none), Event.close c]) ∧
    (state.TimeoutSec.Value ≠ 0 → 0 < Time.Sub endTime (env.clock reads) →
      (env.dial dials address (some (Time.Sub endTime (env.clock reads)))).failed = false →
      ∃ c, (env.dial dials address (some (Time.Sub endTime (env.clock reads)))).conn = some c ∧
        iteration env state diags address endTime reads dials =
          Step.done Exit.connected { state with Available := { Value := true } } diags
            [Event.now (env.clock reads),
              Event.dial address (some (Time.Sub endTime (env.clock reads)))
                (env.dial dials address (some (Time.Sub endTime (env.clock reads)))),
              Event.close c]) := by
  constructor
  · intro ht hf
    obtain ⟨c, hc⟩ := DialResult.conn_of_not_failed _ hf
    exact ⟨c, hc, by simp [iteration, afterDial, Step.after, ht, hf, hc]⟩
  · intro ht hpos hf
    obtain ⟨c, hc⟩ := DialResult.conn_of_not_failed _ hf
    exact ⟨c, hc, by simp [iteration, afterDial, Step.after, ht, hf, hc, not_le.mpr hpos]⟩

/-- Without timeout a pass reads no clock and looks at no deadline: it dials,
and either leaves the loop connected or goes round again. -/
theorem iteration_zero (env : Env) (state : dataSourcePortWaitType) (diags : Diagnostics)
    (address : String) (endTime : Time) (reads dials : Nat)
    (ht : state.TimeoutSec.Value = 0) :
    iteration env state diags address endTime reads dials =
      if (env.dial dials address none).failed then
        Step.next reads (dials + 1)
          (Event.dial address none (env.dial dials address none) ::
            (if cooldownMsOf state = 0 then [] else [Event.sleep (cooldownDurOf state)]))
      else
        Step.done Exit.connected { state with Available := { Value := true } } diags
          (Event.dial address none (env.dial dials address none) ::
            (match (env.dial dials address none).conn with
              | some c => [Event.close c]
              | none => [])) := by
  simp only [iteration, afterDial, ht, if_true, cooldownDurOf]
  split_ifs <;> simp_all [Step.after]

/-- Without timeout the loop does not depend on the clock, on the deadline or
on the count of clock readings. -/
theorem loop_zero_clock (env env1 : Env) (state : dataSourcePortWaitType)
    (diags : Diagnostics) (address : String) (endTime endTime1 : Time)
    (ht : state.TimeoutSec.Value = 0) (hdial : env1.dial = env.dial) (fuel : Nat) :
    ∀ reads reads1 dials,
      loop env1 state diags address endTime1 fuel reads1 dials =
        loop env state diags address endTime fuel reads dials := by
  induction fuel with
  | zero => intro _ _ _; rfl
  | succ n ih =>
    intro reads reads1 dials
    rw [loop_succ, loop_succ, iteration_zero _ _ _ _ _ _ _ ht, iteration_zero _ _ _ _ _ _ _ ht,
      hdial]
    by_cases hf : (env.dial dials address none).failed = true
    · simp only [hf, if_true]
      rw [ih reads reads1 (dials + 1)]
    · have hf0 : (env.dial dials address none).failed = false := by simpa using hf
      simp only [hf0, Bool.false_eq_true, if_false]

/-! ## Arithmetic of durations and instants -/

/-- A value in the `int64` range is not changed by the wrap. -/
theorem wrapInt64_of_range (x : Int) (h1 : -9223372036854775808 ≤ x)
    (h2 : x ≤ 9223372036854775807) : wrapInt64 x = x := by
  unfold wrapInt64
  omega

/-- The wrap of a non-negative value does not exceed it. -/
theorem wrapInt64_le (x : Int) (h : 0 ≤ x) : wrapInt64 x ≤ x := by
  unfold wrapInt64
  omega

/-- The difference of two instants is positive exactly when the first is
later. -/
theorem Time.sub_pos_iff (t u : Int) : 0 < Time.Sub t u ↔ u < t := by
  unfold Time.Sub maxDuration minDuration
  split_ifs <;> omega

/-- A positive difference of two instants does not exceed the true one. -/
theorem Time.sub_le (t u : Int) (h : 0 < Time.Sub t u) : Time.Sub t u ≤ t - u := by
  unfold Time.Sub maxDuration minDuration at *
  split_ifs at h ⊢ <;> omega

/-- The events of a terminated run of `tryConnect` after the first clock
reading are as `EventOK` says, and each two consecutive events of the run are
as `Follows` says. -/
theorem tryConnect_events (env : Env) (state : dataSourcePortWaitType) (diags : Diagnostics)
    (fuel : Nat) (r : Run) (h : tryConnect env state diags fuel = some r) :
    ∃ tr, r.trace = Event.now (env.clock 0) :: tr ∧
      (∀ x ∈ tr, EventOK env state (addressOf state) (endTimeOf env state) x) ∧
      List.Chain' (Follows state (endTimeOf env state)) r.trace := by
  obtain ⟨run, hl, _, _, htr, _⟩ := tryConnect_some env state diags fuel r h
  refine ⟨run.trace, htr, loop_events _ _ _ _ _ _ _ _ _ hl, ?_⟩
  rw [htr]
  exact loop_chain _ _ _ _ _ _ _ _ _ hl _

/-- In a chain, an event that is not the first comes right after one to which
it is related. -/
theorem chain_pred (R : Event → Event → Prop) (l pre post : List Event) (y : Event)
    (h : List.Chain' R l) (hl : l = pre ++ y :: post) :
    pre = [] ∨ ∃ pre1 x, pre = pre1 ++ [x] ∧ R x y := by
  rcases List.eq_nil_or_concat pre with hnil | ⟨pre1, x, hpre⟩
  · exact Or.inl hnil
  · rw [List.concat_eq_append] at hpre
    refine Or.inr ⟨pre1, x, hpre, ?_⟩
    rw [hl, hpre, List.append_assoc, List.singleton_append] at h
    exact (List.chain'_append_cons_cons.mp h).2.1

/-! ## Termination and non-termination -/

/-- Without timeout, on a network where every dial fails, the run never
ends. -/
theorem tryConnect_never (env : Env) (state : dataSourcePortWaitType) (diags : Diagnostics)
    (ht : state.TimeoutSec.Value = 0) (hall : ∀ k a t, (env.dial k a t).failed = true)
    (fuel : Nat) : tryConnect env state diags fuel = none := by
  cases h : tryConnect env state diags fuel with
  | none => rfl
  | some r =>
    exfalso
    rcases tryConnect_final env state diags fuel r h with
      ⟨he, _, _⟩ | ⟨_, _, hne, _⟩ | ⟨_, _, hne, _⟩ | ⟨_, hne, _⟩ | ⟨_, hne, _⟩
    · rcases tryConnect_trace env state diags fuel r h with
        ⟨hne, _⟩ | ⟨_, pre, tmo, res, c, _, ⟨k, hk⟩, hf, _, _⟩
      · exact hne he
      · rw [hk, hall] at hf
        exact Bool.noConfusion hf
    all_goals exact absurd ht hne

/-- Under a timeout, once the clock stays at or past the deadline from its
`n`-th reading on, the loop ends within the fuel that reaches that reading. -/
theorem loop_terminates (env : Env) (state : dataSourcePortWaitType) (diags : Diagnostics)
    (address : String) (endTime : Time) (ht : state.TimeoutSec.Value ≠ 0) (n : Nat)
    (hn : ∀ k, n ≤ k → endTime ≤ env.clock k) (fuel : Nat) :
    ∀ reads dials, n < fuel + reads → 0 < fuel →
      ∃ run, loop env state diags address endTime fuel reads dials = some run := by
  induction fuel with
  | zero => intro _ _ _ h0; exact absurd h0 (lt_irrefl 0)
  | succ m ih =>
    intro reads dials hlt _
    rw [loop_succ]
    cases hit : iteration env state diags address endTime reads dials with
    | done e s d ev => exact ⟨_, rfl⟩
    | next r1 k1 ev =>
      simp only
      rcases iteration_next _ _ _ _ _ _ _ _ _ _ hit with
        ⟨_, ⟨h0, _⟩ | ⟨_, hpos, _, hcase⟩⟩
      · exact absurd h0 ht
      · have hbefore : env.clock reads < endTime := (Time.sub_pos_iff _ _).mp hpos
        have hreads : reads < n := by
          by_contra hge
          exact absurd (hn reads (not_lt.mp hge)) (not_le.mpr hbefore)
        have hr1 : reads + 1 ≤ r1 := by
          rcases hcase with ⟨_, hr, _⟩ | ⟨_, _, hr, _⟩ <;> omega
        obtain ⟨run1, hrun1⟩ := ih r1 k1 (by omega) (by omega)
        rw [hrun1]
        exact ⟨_, rfl⟩

/-- Under a timeout, once the clock stays at or past the deadline from its
`n`-th reading on, `tryConnect` ends with fuel `n + 1`. -/
theorem tryConnect_terminates (env : Env) (state : dataSourcePortWaitType)
    (diags : Diagnostics) (ht : state.TimeoutSec.Value ≠ 0) (n : Nat)
    (hn : ∀ k, n ≤ k → endTimeOf env state ≤ env.clock k) :
    ∃ r, tryConnect env state diags (n + 1) = some r := by
  obtain ⟨run, hrun⟩ := loop_terminates env state diags (addressOf state)
    (endTimeOf env state) ht n hn (n + 1) 1 0 (by omega) (by omega)
  unfold tryConnect
  simp only
  unfold endTimeOf at hrun
  rw [hrun]
  simp only
  split_ifs
  · exact ⟨_, rfl⟩
  · exact ⟨_, rfl⟩

/-! ## Runs of a single pass -/

/-- When no pass can go round again, a terminated loop is its first pass. -/
theorem loop_single (env : Env) (state : dataSourcePortWaitType) (diags : Diagnostics)
    (address : String) (endTime : Time) (fuel reads dials : Nat) (run : Run)
    (hno : ∀ reads dials reads1 dials1 ev,
      iteration env state diags address endTime reads dials ≠ Step.next reads1 dials1 ev)
    (h : loop env state diags address endTime fuel reads dials = some run) :
    iteration env state diags address endTime reads dials =
      Step.done run.exit run.state run.diags run.trace := by
  cases fuel with
  | zero => simp [loop_zero] at h
  | succ m =>
    rw [loop_succ] at h
    cases hit : iteration env state diags address endTime reads dials with
    | done e s d ev =>
      rw [hit] at h
      simp only [Option.some.injEq] at h
      subst h
      rfl
    | next r1 k1 ev => exact absurd hit (hno _ _ _ _ _)

/-! ## Sample clocks are monotonic -/

/-- A clock that ticks forward is monotonic. -/
theorem ticking_monotone (step : Int) (h : 0 ≤ step) : Monotone (ticking step) := by
  intro a b hab
  have hab1 : (a : Int) ≤ (b : Int) := Int.ofNat_le.mpr hab
  exact mul_le_mul_of_nonneg_left hab1 h

/-- The clock `jumping` is monotonic. -/
theorem jumping_monotone : Monotone jumping := by
  intro a b hab
  show @LE.le Int _ (if a < 3 then 0 else 1000000000) (if b < 3 then 0 else 1000000000)
  split_ifs <;> omega

/-! ## Claims -/

/-- C1, as amended.  On the exits that report no failure (connection made,
deadline expired or cooldown overshoot with `error_on_timeout` off) the ID
field on return is the computed address and the diagnostics are untouched; on
the two exits that report a failure the function returns before line 124: the
ID field is what it was on entry and the diagnostics hold an error. -/
theorem tryConnect_ID (env : Env) (state : dataSourcePortWaitType) (diags : Diagnostics)
    (fuel : Nat) (r : Run) (h : tryConnect env state diags fuel = some r) :
    ((r.exit = Exit.connected ∨ r.exit = Exit.timeoutBreak ∨ r.exit = Exit.cooldownBreak) ∧
      r.state.ID = { Value := addressOf state } ∧ r.diags = diags) ∨
    ((r.exit = Exit.timeoutReturn ∨ r.exit = Exit.cooldownReturn) ∧
      r.state.ID = state.ID ∧ r.diags.HasError = true) := by
  rcases tryConnect_final env state diags fuel r h with
    ⟨he, hd, hs⟩ | ⟨he, hd, _, _, hs⟩ | ⟨he, hd, _, _, _, hs⟩ | ⟨he, _, _, hs, hd⟩ |
    ⟨he, _, _, _, hs, hd⟩
  · exact Or.inl ⟨Or.inl he, by rw [hs], hd⟩
  · exact Or.inl ⟨Or.inr (Or.inl he), by rw [hs], hd⟩
  · exact Or.inl ⟨Or.inr (Or.inr he), by rw [hs], hd⟩
  · exact Or.inr ⟨Or.inl he, by rw [hs], by rw [hd]; exact Diagnostics.hasError_addError _ _ _⟩
  · exact Or.inr ⟨Or.inr he, by rw [hs], by rw [hd]; exact Diagnostics.hasError_addError _ _ _⟩

/-- C1 at the second test: the run ends on the `break` of line 94 with the
ID set to the address. -/
theorem tryConnect_ID_witness :
    tryConnect { clock := ticking 400000000, dial := refusing } unreachableQuiet [] 3 =
      some quietRun ∧
    (((quietRun.exit = Exit.connected ∨ quietRun.exit = Exit.timeoutBreak ∨
          quietRun.exit = Exit.cooldownBreak) ∧
        quietRun.state.ID = { Value := addressOf unreachableQuiet } ∧ quietRun.diags = []) ∨
      ((quietRun.exit = Exit.timeoutReturn ∨ quietRun.exit = Exit.cooldownReturn) ∧
        quietRun.state.ID = unreachableQuiet.ID ∧ quietRun.diags.HasError = true)) :=
  ⟨by decide,
    tryConnect_ID { clock := ticking 400000000, dial := refusing } unreachableQuiet [] 3
      quietRun (by decide)⟩

/-- C1 as stated fails on both failure exits: with `error_on_timeout` on, the
run that ends by deadline expiry and the run that ends by cooldown overshoot
both return with an error and with the ID still empty, not the address. -/
theorem tryConnect_ID_counterexample :
    (tryConnect { clock := ticking 1000000000, dial := refusing } unreachableError [] 1).map
        (fun r => (r.exit, r.diags.HasError, r.state.ID.Value,
          decide (r.state.ID.Value = addressOf unreachableError))) =
      some (Exit.timeoutReturn, true, "", false) ∧
    (tryConnect { clock := ticking 1000, dial := refusing }
        (overshooting { Value := 2000 }) [] 1).map
        (fun r => (r.exit, r.diags.HasError, r.state.ID.Value,
          decide (r.state.ID.Value = addressOf (overshooting { Value := 2000 })))) =
      some (Exit.cooldownReturn, true, "", false) := by
  decide

/-- C2.  A terminated run, in particular one under a timeout, left the loop
by one of the two `return` statements, the only places that add a diagnostic,
if and only if `error_on_timeout` is on and no dial of the run succeeded.  The
`return` of line 92 adds the error "connection timeout" / "timed out trying
to connect to " + address, that of line 110 the error "connection timeout" /
"prematurely timed out trying to connect to " + address + " (cooldown
skipped)", and every other exit leaves the diagnostics untouched.  Entered
without error in the diagnostics, the run ends with an error in them exactly
in that case, and then with exactly that one error added at the end.  In
particular, on a network where every dial fails, with `error_on_timeout` on,
the run ends with an error.  (Nothing here needs `timeout_sec > 0`: with
`timeout_sec = 0` neither `return` is reachable and both sides are false.) -/
theorem tryConnect_failure_iff (env : Env) (state : dataSourcePortWaitType)
    (diags : Diagnostics) (fuel : Nat) (r : Run)
    (h : tryConnect env state diags fuel = some r) :
    ((r.exit = Exit.timeoutReturn ∨ r.exit = Exit.cooldownReturn) ↔
      (state.ErrorOnTimeout.Value = true ∧ ∀ x ∈ r.trace, x.isSuccess = false)) ∧
    (r.exit = Exit.timeoutReturn →
      r.diags = diags.AddError "connection timeout"
        ("timed out trying to connect to " ++ addressOf state)) ∧
    (r.exit = Exit.cooldownReturn →
      r.diags = diags.AddError "connection timeout"
        ("prematurely timed out trying to connect to " ++ addressOf state ++
          " (cooldown skipped)")) ∧
    (¬ (r.exit = Exit.timeoutReturn ∨ r.exit = Exit.cooldownReturn) → r.diags = diags) ∧
    (diags.HasError = false →
      (r.diags.HasError = true ↔
        (state.ErrorOnTimeout.Value = true ∧ ∀ x ∈ r.trace, x.isSuccess = false)) ∧
      (r.diags.HasError = true →
        r.diags = diags ++ [NewErrorDiagnostic "connection timeout"
          ("timed out trying to connect to " ++ addressOf state)] ∨
        r.diags = diags ++ [NewErrorDiagnostic "connection timeout"
          ("prematurely timed out trying to connect to " ++ addressOf state ++
            " (cooldown skipped)")])) ∧
    ((∀ k a t, (env.dial k a t).failed = true) → state.ErrorOnTimeout.Value = true →
      r.diags.HasError = true) := by
  have htr := tryConnect_trace env state diags fuel r h
  have hsucc : r.exit = Exit.connected → ¬ ∀ x ∈ r.trace, x.isSuccess = false := by
    intro he hall
    rcases htr with ⟨hne, _⟩ | ⟨_, pre, tmo, res, c, htrace, _, hf, _, _⟩
    · exact hne he
    · have := hall (Event.dial (addressOf state) tmo res) (by simp [htrace])
      simp [Event.isSuccess, hf] at this
  have hnos : r.exit ≠ Exit.connected → ∀ x ∈ r.trace, x.isSuccess = false := by
    intro hne x hx
    rcases htr with ⟨_, hall⟩ | ⟨he, _⟩
    · exact (hall x hx).1
    · exact absurd he hne
  have hconn : (∀ k a t, (env.dial k a t).failed = true) → r.exit ≠ Exit.connected := by
    intro hall he
    rcases htr with ⟨hne, _⟩ | ⟨_, pre, tmo, res, c, _, ⟨k, hk⟩, hf, _, _⟩
    · exact hne he
    · rw [hk, hall] at hf
      exact Bool.noConfusion hf
  rcases tryConnect_final env state diags fuel r h with
    ⟨he, hd, _⟩ | ⟨he, hd, _, heo, _⟩ | ⟨he, hd, _, heo, _, _⟩ | ⟨he, _, heo, _, hd⟩ |
    ⟨he, _, heo, _, _, hd⟩
  · refine ⟨?_, ?_, ?_, ?_, ?_, ?_⟩
    · simp only [he, reduceCtorEq, or_self, false_iff, not_and]
      exact fun _ => hsucc he
    · simp [he]
    · simp [he]
    · exact fun _ => hd
    · intro hdiag
      rw [hd, hdiag]
      simp only [Bool.false_eq_true, false_iff, not_and, false_imp_iff, and_true]
      exact fun _ => hsucc he
    · exact fun hall _ => absurd he (hconn hall)
  · refine ⟨?_, ?_, ?_, ?_, ?_, ?_⟩
    · simp [he, heo]
    · simp [he]
    · simp [he]
    · exact fun _ => hd
    · intro hdiag
      rw [hd, hdiag]
      simp [heo]
    · intro _ h1
      rw [heo] at h1
      exact Bool.noConfusion h1
  · refine ⟨?_, ?_, ?_, ?_, ?_, ?_⟩
    · simp [he, heo]
    · simp [he]
    · simp [he]
    · exact fun _ => hd
    · intro hdiag
      rw [hd, hdiag]
      simp [heo]
    · intro _ h1
      rw [heo] at h1
      exact Bool.noConfusion h1
  · have hno := hnos (by rw [he]; decide)
    have herr : r.diags.HasError = true := by
      rw [hd]; exact Diagnostics.hasError_addError _ _ _
    refine ⟨?_, ?_, ?_, ?_, ?_, ?_⟩
    · simp only [he, true_or, true_iff]
      exact ⟨heo, hno⟩
    · exact fun _ => hd
    · simp [he]
    · simp [he]
    · intro hdiag
      refine ⟨?_, fun _ => Or.inl ?_⟩
      · simp only [herr, true_iff]
        exact ⟨heo, hno⟩
      · rw [hd, Diagnostics.addError_eq _ _ _ hdiag]
    · exact fun _ _ => herr
  · have hno := hnos (by rw [he]; decide)
    have herr : r.diags.HasError = true := by
      rw [hd]; exact Diagnostics.hasError_addError _ _ _
    refine ⟨?_, ?_, ?_, ?_, ?_, ?_⟩
    · simp only [he, or_true, true_iff]
      exact ⟨heo, hno⟩
    · simp [he]
    · exact fun _ => hd
    · simp [he]
    · intro hdiag
      refine ⟨?_, fun _ => Or.inr ?_⟩
      · simp only [herr, true_iff]
        exact ⟨heo, hno⟩
      · rw [hd, Diagnostics.addError_eq _ _ _ hdiag]
    · exact fun _ _ => herr

/-- C2 at the first test: unreachable host, `timeout_sec = 1`,
`error_on_timeout` on; the run ends with the plain timeout error. -/
theorem tryConnect_failure_iff_witness :
    tryConnect { clock := ticking 400000000, dial := refusing } unreachableError [] 3 =
      some errorRun ∧
    errorRun.diags.HasError = true ∧
    errorRun.diags = [NewErrorDiagnostic "connection timeout"
      ("timed out trying to connect to " ++ addressOf unreachableError)] :=
  ⟨by decide,
    (tryConnect_failure_iff { clock := ticking 400000000, dial := refusing }
      unreachableError [] 3 errorRun (by decide)).2.2.2.2.2 (fun _ _ _ => rfl) (by decide),
    (tryConnect_failure_iff { clock := ticking 400000000, dial := refusing }
      unreachableError [] 3 errorRun (by decide)).2.1 (by decide)⟩

/-- C3.  With `error_on_timeout` off, a run in which no dial succeeded,
entered with `available` not true, left the loop by the `break` of line 94
(deadline expired) or of line 112 (cooldown overshoot); in both cases it
leaves the diagnostics as they were, `available` false, and the ID set to the
address, which is `host:port` for a host without colon.  (Such a run exists
under a timeout only; the statement does not need `timeout_sec > 0` as a
hypothesis.) -/
theorem tryConnect_quiet (env : Env) (state : dataSourcePortWaitType)
    (diags : Diagnostics) (fuel : Nat) (r : Run)
    (heo : state.ErrorOnTimeout.Value = false)
    (hav : state.Available.Value = false)
    (h : tryConnect env state diags fuel = some r)
    (hno : ∀ x ∈ r.trace, x.isSuccess = false) :
    (r.exit = Exit.timeoutBreak ∨ r.exit = Exit.cooldownBreak) ∧
    r.diags = diags ∧
    r.state.Available.Value = false ∧
    r.state.ID = { Value := addressOf state } ∧
    (':' ∉ state.Host.Value.data →
      r.state.ID.Value = state.Host.Value ++ ":" ++ formatInt state.Port.Value) := by
  have haddr : ':' ∉ state.Host.Value.data →
      addressOf state = state.Host.Value ++ ":" ++ formatInt state.Port.Value := by
    intro hc
    unfold addressOf JoinHostPort
    rw [if_neg hc]
  rcases tryConnect_final env state diags fuel r h with
    ⟨he, _, _⟩ | ⟨he, hd, _, _, hs⟩ | ⟨he, hd, _, _, _, hs⟩ | ⟨_, _, heo1, _⟩ |
    ⟨_, _, heo1, _⟩
  · exfalso
    rcases tryConnect_trace env state diags fuel r h with
      ⟨hne, _⟩ | ⟨_, pre, tmo, res, c, htrace, _, hf, _, _⟩
    · exact hne he
    · have := hno (Event.dial (addressOf state) tmo res) (by simp [htrace])
      simp [Event.isSuccess, hf] at this
  · refine ⟨Or.inl he, hd, by rw [hs]; exact hav, by rw [hs], ?_⟩
    intro hc
    rw [hs]
    exact haddr hc
  · refine ⟨Or.inr he, hd, by rw [hs]; exact hav, by rw [hs], ?_⟩
    intro hc
    rw [hs]
    exact haddr hc
  · rw [heo] at heo1
    exact Bool.noConfusion heo1
  · rw [heo] at heo1
    exact Bool.noConfusion heo1

/-- C3 at the second test: unreachable host, `timeout_sec = 1`,
`error_on_timeout` off, `cooldown_ms = 10`. -/
theorem tryConnect_quiet_witness :
    tryConnect { clock := ticking 400000000, dial := refusing } unreachableQuiet [] 3 =
      some quietRun ∧
    quietRun.diags = [] ∧ quietRun.state.Available.Value = false ∧
    quietRun.state.ID.Value = "nonexistent.example.tld" ++ ":" ++ formatInt 22 :=
  have key := tryConnect_quiet { clock := ticking 400000000, dial := refusing }
    unreachableQuiet [] 3 quietRun (by decide) (by decide) (by decide) (by decide)
  ⟨by decide, key.2.1, key.2.2.1, key.2.2.2.2 (by decide)⟩

/-- C4.  A run in which some dial returned a connection and no error left the
loop on line 121 at that dial: the trace ends with that dial, the first and
only successful one, followed by the close of its connection, the only close
of the run; `available` is true, the ID is the address, and the diagnostics
are as they were.  At the level of one pass: a pass whose dial succeeds leaves
the loop at once, whatever the state of the clock counters.  A dial that
returns a nil connection and a nil error is handled as a dial that returns an
error. -/
theorem tryConnect_connected (env : Env) (state : dataSourcePortWaitType)
    (diags : Diagnostics) (fuel : Nat) (r : Run)
    (h : tryConnect env state diags fuel = some r)
    (hs : ∃ x ∈ r.trace, x.isSuccess = true) :
    r.exit = Exit.connected ∧
    (∃ pre timeout res c,
      r.trace = pre ++ [Event.dial (addressOf state) timeout res, Event.close c] ∧
      res.failed = false ∧ res.conn = some c ∧
      (∀ x ∈ pre, x.isSuccess = false ∧ x.isClose = false) ∧
      r.trace.filter Event.isSuccess = [Event.dial (addressOf state) timeout res] ∧
      r.trace.filter Event.isClose = [Event.close c]) ∧
    r.state.Available = { Value := true } ∧
    r.state.ID = { Value := addressOf state } ∧
    r.diags = diags ∧
    (∀ endTime reads dials,
      (state.TimeoutSec.Value = 0 → (env.dial dials (addressOf state) none).failed = false →
        ∃ s ev, iteration env state diags (addressOf state) endTime reads dials =
          Step.done Exit.connected s diags ev) ∧
      (state.TimeoutSec.Value ≠ 0 → 0 < Time.Sub endTime (env.clock reads) →
        (env.dial dials (addressOf state)
          (some (Time.Sub endTime (env.clock reads)))).failed = false →
        ∃ s ev, iteration env state diags (addressOf state) endTime reads dials =
          Step.done Exit.connected s diags ev)) ∧
    (DialResult.failed { conn := none, err := none } = true ∧
      ∀ endTime reads dials e,
        afterDial env state diags (addressOf state) endTime reads dials
            { conn := none, err := none } =
          afterDial env state diags (addressOf state) endTime reads dials
            { conn := none, err := some e }) := by
  have hconn : r.exit = Exit.connected ∧
      ∃ pre timeout res c,
        r.trace = pre ++ [Event.dial (addressOf state) timeout res, Event.close c] ∧
        res.failed = false ∧ res.conn = some c ∧
        ∀ x ∈ pre, x.isSuccess = false ∧ x.isClose = false := by
    rcases tryConnect_trace env state diags fuel r h with
      ⟨_, hall⟩ | ⟨he, pre, tmo, res, c, htrace, _, hf, hc, hpre⟩
    · obtain ⟨x, hx, hxs⟩ := hs
      rw [(hall x hx).1] at hxs
      exact Bool.noConfusion hxs
    · exact ⟨he, pre, tmo, res, c, htrace, hf, hc, hpre⟩
  obtain ⟨he, pre, tmo, res, c, htrace, hf, hc, hpre⟩ := hconn
  refine ⟨he, ⟨pre, tmo, res, c, htrace, hf, hc, hpre, ?_, ?_⟩, ?_, ?_, ?_, ?_, ?_⟩
  · have hnil : pre.filter Event.isSuccess = [] :=
      List.filter_eq_nil_iff.mpr (fun x hx => by simp [(hpre x hx).1])
    rw [htrace, List.filter_append, hnil]
    simp [List.filter, Event.isSuccess, hf]
  · have hnil : pre.filter Event.isClose = [] :=
      List.filter_eq_nil_iff.mpr (fun x hx => by simp [(hpre x hx).2])
    rw [htrace, List.filter_append, hnil]
    simp [List.filter, Event.isClose]
  · rcases tryConnect_final env state diags fuel r h with
      ⟨_, _, hst⟩ | ⟨he1, _⟩ | ⟨he1, _⟩ | ⟨he1, _⟩ | ⟨he1, _⟩
    · rw [hst]
    all_goals (rw [he] at he1; exact Exit.noConfusion he1)
  · rcases tryConnect_final env state diags fuel r h with
      ⟨_, _, hst⟩ | ⟨he1, _⟩ | ⟨he1, _⟩ | ⟨he1, _⟩ | ⟨he1, _⟩
    · rw [hst]
    all_goals (rw [he] at he1; exact Exit.noConfusion he1)
  · rcases tryConnect_final env state diags fuel r h with
      ⟨_, hd, _⟩ | ⟨he1, _⟩ | ⟨he1, _⟩ | ⟨he1, _⟩ | ⟨he1, _⟩
    · exact hd
    all_goals (rw [he] at he1; exact Exit.noConfusion he1)
  · intro endTime reads dials
    constructor
    · intro ht hf1
      obtain ⟨c1, _, hit⟩ :=
        (iteration_connected env state diags (addressOf state) endTime reads dials).1 ht hf1
      exact ⟨_, _, hit⟩
    · intro ht hpos hf1
      obtain ⟨c1, _, hit⟩ :=
        (iteration_connected env state diags (addressOf state) endTime reads dials).2 ht hpos hf1
      exact ⟨_, _, hit⟩
  · refine ⟨rfl, ?_⟩
    intro endTime reads dials e
    simp [afterDial, DialResult.failed]

/-- C4 at the third test: the first dial succeeds, its connection is closed,
and nothing follows. -/
theorem tryConnect_connected_witness :
    tryConnect { clock := ticking 400000000, dial := accepting } reachable [] 1 =
      some reachableRun ∧
    reachableRun.exit = Exit.connected ∧
    reachableRun.state.Available = { Value := true } ∧
    reachableRun.state.ID = { Value := addressOf reachable } ∧
    reachableRun.diags = [] :=
  have key := tryConnect_connected { clock := ticking 400000000, dial := accepting }
    reachable [] 1 reachableRun (by decide)
    ⟨Event.dial "1.1.1.1:443" (some 4600000000) { conn := some 0, err := none },
      by decide, by decide⟩
  ⟨by decide, key.1, key.2.2.1, key.2.2.2.1, key.2.2.2.2.1⟩

/-- C5.  With `timeout_sec = 0`, whatever the cooldown and `error_on_timeout`:
every terminated run left the loop on line 121, with `available` true and the
diagnostics as they were, and read the clock once only, on line 80 before the
loop; the outcome does not depend on the clock at all; and on a network
where every dial fails no amount of fuel makes the loop end. -/
theorem tryConnect_forever (env : Env) (state : dataSourcePortWaitType)
    (diags : Diagnostics) (ht : state.TimeoutSec.Value = 0) :
    (∀ fuel r, tryConnect env state diags fuel = some r →
      r.exit = Exit.connected ∧ r.state.Available.Value = true ∧ r.diags = diags ∧
      r.trace.head? = some (Event.now (env.clock 0)) ∧
      ∀ x ∈ r.trace.tail, x.isNow = false) ∧
    (∀ clock1 fuel,
      (tryConnect { clock := clock1, dial := env.dial } state diags fuel).map
          (fun r => (r.exit, r.state, r.diags, r.trace.tail)) =
        (tryConnect env state diags fuel).map
          (fun r => (r.exit, r.state, r.diags, r.trace.tail))) ∧
    ((∀ k a t, (env.dial k a t).failed = true) →
      ∀ fuel, tryConnect env state diags fuel = none) := by
  have hfirst : ∀ fuel r, tryConnect env state diags fuel = some r →
      r.exit = Exit.connected ∧ r.state.Available.Value = true ∧ r.diags = diags := by
    intro fuel r h
    rcases tryConnect_final env state diags fuel r h with
      ⟨he, hd, hs⟩ | ⟨_, _, hne, _⟩ | ⟨_, _, hne, _⟩ | ⟨_, hne, _⟩ | ⟨_, hne, _⟩
    · exact ⟨he, by rw [hs], hd⟩
    all_goals exact absurd ht hne
  refine ⟨?_, ?_, ?_⟩
  · intro fuel r h
    obtain ⟨he, hav, hd⟩ := hfirst fuel r h
    obtain ⟨run, hl, _, _, htr, _⟩ := tryConnect_some env state diags fuel r h
    refine ⟨he, hav, hd, by rw [htr]; rfl, ?_⟩
    intro x hx
    rw [htr] at hx
    have hok := loop_events _ _ _ _ _ _ _ _ _ hl x hx
    cases x with
    | now t => exact absurd ht hok.1
    | dial a tmo res => rfl
    | close c => rfl
    | sleep d => rfl
  · intro clock1 fuel
    unfold tryConnect
    simp only
    rw [loop_zero_clock env { clock := clock1, dial := env.dial } state diags (addressOf state)
      (Time.Add (env.clock 0) (durationOf state.TimeoutSec.Value Second)) _ ht rfl fuel 1 1 0]
    cases loop env state diags (addressOf state)
        (Time.Add (env.clock 0) (durationOf state.TimeoutSec.Value Second)) fuel 1 0 with
    | none => rfl
    | some run => cases hr : run.exit.isReturn <;> simp [hr]
  · intro hall fuel
    exact tryConnect_never env state diags ht hall fuel

/-- C5 at a request without timeout: two refused dials, each followed by the
default cooldown, then a connection; and no end on the refusing network. -/
theorem tryConnect_forever_witness :
    tryConnect { clock := ticking 1, dial := lateAccepting } patient [] 3 = some patientRun ∧
    patientRun.exit = Exit.connected ∧ patientRun.state.Available.Value = true ∧
    (∀ fuel, tryConnect { clock := ticking 1, dial := refusing } patient [] fuel = none) :=
  have key := tryConnect_forever { clock := ticking 1, dial := lateAccepting } patient []
    (by decide)
  have key2 := tryConnect_forever { clock := ticking 1, dial := refusing } patient []
    (by decide)
  ⟨by decide, (key.1 3 patientRun (by decide)).1, (key.1 3 patientRun (by decide)).2.1,
    key2.2.2 (fun _ _ _ => rfl)⟩

/-- C6, as amended.  For a request whose cooldown in milliseconds (the value
of `cooldown_ms` when the field is neither unknown nor null, and 500
otherwise) fits the nanosecond count of `time.Duration`, that is lies between
-9223372036854 and 9223372036854: the cooldown as a duration is that many
milliseconds; every sleep of a run lasts exactly that many milliseconds and
is made only for a nonzero cooldown; after a failed dial with cooldown 0 the
pass ends at once, with no clock reading (so no overshoot check) and no
sleep, and the next dial follows; with a nonzero cooldown a pass that goes
round again ends with the sleep of that many milliseconds. -/
theorem cooldown_applied (state : dataSourcePortWaitType)
    (h1 : -9223372036854 ≤ cooldownMsOf state) (h2 : cooldownMsOf state ≤ 9223372036854) :
    (state.CooldownMs.Unknown = false → state.CooldownMs.Null = false →
      cooldownMsOf state = state.CooldownMs.Value) ∧
    ((state.CooldownMs.Unknown = true ∨ state.CooldownMs.Null = true) →
      cooldownMsOf state = 500) ∧
    cooldownDurOf state = cooldownMsOf state * 1000000 ∧
    (∀ env diags fuel r, tryConnect env state diags fuel = some r →
      ∀ d, Event.sleep d ∈ r.trace →
        cooldownMsOf state ≠ 0 ∧ d = cooldownMsOf state * 1000000) ∧
    (∀ env diags address endTime reads dials res, res.failed = true →
      (cooldownMsOf state = 0 →
        afterDial env state diags address endTime reads dials res =
          Step.next reads (dials + 1) []) ∧
      (cooldownMsOf state ≠ 0 → ∀ reads1 dials1 ev,
        afterDial env state diags address endTime reads dials res =
          Step.next reads1 dials1 ev →
        dials1 = dials + 1 ∧
        ev.getLast? = some (Event.sleep (cooldownMsOf state * 1000000)))) := by
  have hdur : cooldownDurOf state = cooldownMsOf state * 1000000 := by
    unfold cooldownDurOf durationOf Millisecond
    exact wrapInt64_of_range _ (by omega) (by omega)
  refine ⟨?_, ?_, hdur, ?_, ?_⟩
  · intro hu hn
    simp [cooldownMsOf, hu, hn]
  · intro hor
    rcases hor with hu | hn
    · simp [cooldownMsOf, hu, defaultCooldownMs]
    · simp [cooldownMsOf, hn, defaultCooldownMs]
  · intro env diags fuel r h d hd
    obtain ⟨tr, htr, hok, _⟩ := tryConnect_events env state diags fuel r h
    rw [htr] at hd
    rcases List.mem_cons.mp hd with heq | hmem
    · exact Event.noConfusion heq
    · exact ⟨(hok _ hmem).1, by rw [← hdur]; exact (hok _ hmem).2⟩
  · intro env diags address endTime reads dials res hf
    constructor
    · intro h0
      simp [afterDial, hf, h0]
    · intro hne reads1 dials1 ev hnext
      rw [← hdur]
      rcases afterDial_next _ _ _ _ _ _ _ _ _ _ _ hnext with
        ⟨_, hk, ⟨h0, _⟩ | ⟨_, _, _, rfl⟩ | ⟨_, _, _, _, rfl⟩⟩
      · exact absurd h0 hne
      · exact ⟨hk, rfl⟩
      · exact ⟨hk, rfl⟩

/-- C6 at the second test (`cooldown_ms = 10`) and at a request with a null
`cooldown_ms`: the sleep of the run lasts 10 ms, and the null field gives the
default 500. -/
theorem cooldown_applied_witness :
    (-9223372036854 ≤ cooldownMsOf unreachableQuiet ∧
      cooldownMsOf unreachableQuiet ≤ 9223372036854) ∧
    tryConnect { clock := ticking 400000000, dial := refusing } unreachableQuiet [] 3 =
      some quietRun ∧
    cooldownMsOf unreachableQuiet = 10 ∧
    (cooldownMsOf unreachableQuiet ≠ 0 ∧ (10000000 : Int) = cooldownMsOf unreachableQuiet * 1000000) ∧
    cooldownMsOf patient = 500 :=
  ⟨by decide, by decide,
    (cooldown_applied unreachableQuiet (by decide) (by decide)).1 (by decide) (by decide),
    (cooldown_applied unreachableQuiet (by decide) (by decide)).2.2.2.1
      { clock := ticking 400000000, dial := refusing } [] 3 quietRun (by decide)
      10000000 (by decide),
    (cooldown_applied patient (by decide) (by decide)).2.1 (Or.inr (by decide))⟩

/-- C6 as stated fails when the configured cooldown does not fit
`time.Duration`: with `cooldown_ms = 9223372036855` provided, the product of
line 103 wraps, and the sleep made after the failed dial is of
-9223372036854551616 ns (no wait at all), not of 9223372036855 ms. -/
theorem cooldown_applied_counterexample :
    cooldownMsOf (overshooting { Value := 9223372036855 }) = 9223372036855 ∧
    cooldownDurOf (overshooting { Value := 9223372036855 }) = -9223372036854551616 ∧
    cooldownDurOf (overshooting { Value := 9223372036855 }) ≠ 9223372036855 * 1000000 ∧
    (tryConnect { clock := jumping, dial := refusing }
        (overshooting { Value := 9223372036855 }) [] 2).map
        (fun r => r.trace.filter Event.isSleep) =
      some [Event.sleep (-9223372036854551616)] := by
  decide

/-- C8, as amended.  For a host without colon the address is host, a colon,
and the decimal rendering of the port; for a host with a colon (an IPv6
literal) `net.JoinHostPort` puts the host in brackets.  That one string is
the target of every dial of a run and the ID set on line 124. -/
theorem address_format (state : dataSourcePortWaitType) :
    (':' ∉ state.Host.Value.data →
      addressOf state = state.Host.Value ++ ":" ++ formatInt state.Port.Value) ∧
    (':' ∈ state.Host.Value.data →
      addressOf state = "[" ++ state.Host.Value ++ "]:" ++ formatInt state.Port.Value) ∧
    (∀ env diags fuel r, tryConnect env state diags fuel = some r →
      (∀ a tmo res, Event.dial a tmo res ∈ r.trace → a = addressOf state) ∧
      (r.exit.isReturn = false → r.state.ID.Value = addressOf state)) := by
  refine ⟨?_, ?_, ?_⟩
  · intro hc
    unfold addressOf JoinHostPort
    rw [if_neg hc]
  · intro hc
    unfold addressOf JoinHostPort
    rw [if_pos hc]
  · intro env diags fuel r h
    constructor
    · intro a tmo res hmem
      obtain ⟨tr, htr, hok, _⟩ := tryConnect_events env state diags fuel r h
      rw [htr] at hmem
      rcases List.mem_cons.mp hmem with heq | hmem
      · exact Event.noConfusion heq
      · exact (hok _ hmem).1
    · intro hret
      obtain ⟨run, _, hexit, _, _, hstate⟩ := tryConnect_some env state diags fuel r h
      rw [hexit] at hret
      rw [hstate, hret]
      rfl

/-- C8 at the requests of the tests: host and port joined by a colon, the
port in decimal. -/
theorem address_format_witness :
    addressOf reachable = "1.1.1.1:443" ∧ addressOf patient = "127.0.0.1:4819" ∧
    addressOf reachable = "1.1.1.1" ++ ":" ++ formatInt 443 :=
  ⟨by decide, by decide, (address_format reachable).1 (by decide)⟩

/-- C8 as stated fails for a host with a colon: the IPv6 loopback literal is
bracketed in the address. -/
theorem address_format_counterexample :
    addressOf { Host := { Value := "::1" }, Port := { Value := 80 } } = "[::1]:80" ∧
    addressOf { Host := { Value := "::1" }, Port := { Value := 80 } } ≠
      "::1" ++ ":" ++ formatInt 80 := by
  decide

/-- C7, as amended.  A run entered with `available` not true and without
error in the diagnostics, once terminated, shows exactly one of the three
outcomes: `available` true; `available` false and no error; an error.  Under
a timeout, the run does terminate as soon as the clock stays at or past the
deadline from some reading on.  (Without timeout a run need not terminate,
see `tryConnect_outcome_counterexample`.) -/
theorem tryConnect_outcome (env : Env) (state : dataSourcePortWaitType)
    (diags : Diagnostics) (hav : state.Available.Value = false)
    (hd : diags.HasError = false) :
    (∀ fuel r, tryConnect env state diags fuel = some r →
      (r.state.Available.Value = true ∨
        (r.state.Available.Value = false ∧ r.diags.HasError = false) ∨
        r.diags.HasError = true) ∧
      ¬ (r.state.Available.Value = true ∧
        (r.state.Available.Value = false ∧ r.diags.HasError = false)) ∧
      ¬ (r.state.Available.Value = true ∧ r.diags.HasError = true) ∧
      ¬ ((r.state.Available.Value = false ∧ r.diags.HasError = false) ∧
        r.diags.HasError = true)) ∧
    (state.TimeoutSec.Value ≠ 0 → ∀ n, (∀ k, n ≤ k → endTimeOf env state ≤ env.clock k) →
      ∃ r, tryConnect env state diags (n + 1) = some r) := by
  refine ⟨?_, fun ht n hn => tryConnect_terminates env state diags ht n hn⟩
  intro fuel r h
  rcases tryConnect_final env state diags fuel r h with
    ⟨_, hdg, hs⟩ | ⟨_, hdg, _, _, hs⟩ | ⟨_, hdg, _, _, _, hs⟩ | ⟨_, _, _, hs, hdg⟩ |
    ⟨_, _, _, _, hs, hdg⟩
  · have h1 : r.state.Available.Value = true := by rw [hs]
    have h2 : r.diags.HasError = false := by rw [hdg]; exact hd
    simp [h1, h2]
  · have h1 : r.state.Available.Value = false := by rw [hs]; exact hav
    have h2 : r.diags.HasError = false := by rw [hdg]; exact hd
    simp [h1, h2]
  · have h1 : r.state.Available.Value = false := by rw [hs]; exact hav
    have h2 : r.diags.HasError = false := by rw [hdg]; exact hd
    simp [h1, h2]
  · have h1 : r.state.Available.Value = false := by rw [hs]; exact hav
    have h2 : r.diags.HasError = true := by
      rw [hdg]; exact Diagnostics.hasError_addError _ _ _
    simp [h1, h2]
  · have h1 : r.state.Available.Value = false := by rw [hs]; exact hav
    have h2 : r.diags.HasError = true := by
      rw [hdg]; exact Diagnostics.hasError_addError _ _ _
    simp [h1, h2]

/-- C7 at the first test: on a clock that ticks every 400 ms the run ends,
with an error and `available` false. -/
theorem tryConnect_outcome_witness :
    (∃ r, tryConnect { clock := ticking 400000000, dial := refusing } unreachableError [] 4 =
      some r) ∧
    ¬ (errorRun.state.Available.Value = true ∧ errorRun.diags.HasError = true) :=
  have key := tryConnect_outcome { clock := ticking 400000000, dial := refusing }
    unreachableError [] (by decide) (by decide)
  ⟨key.2 (by decide) 3 (fun k hk => by
      show (0 : Int) + wrapInt64 (1 * 1000000000) ≤ 400000000 * (k : Int)
      have : wrapInt64 (1 * 1000000000) = 1000000000 := by decide
      rw [this]
      omega),
    (key.1 3 errorRun (by decide)).2.2.1⟩

/-- C7 as stated fails: the invocation without timeout on a network where
every dial is refused never terminates, so none of the three outcomes holds
of it. -/
theorem tryConnect_outcome_counterexample :
    ¬ ∃ fuel r, tryConnect { clock := ticking 1, dial := refusing } patient [] fuel = some r := by
  rintro ⟨fuel, r, h⟩
  rw [tryConnect_never { clock := ticking 1, dial := refusing } patient [] (by decide)
    (fun _ _ _ => rfl) fuel] at h
  exact Option.noConfusion h

/-- C9, as amended.  For a request with `0 < timeout_sec` and a positive
cooldown whose durations fit `time.Duration` (`timeout_sec ≤ 9223372036`,
cooldown at most 9223372036854 ms), the deadline is the first clock reading
plus `timeout_sec` seconds and the cooldown lasts its milliseconds.  After a
failed dial, with the clock then read at `now`: if `now + cooldown` is
strictly later than the deadline the pass leaves the loop at once, with no
sleep and no further dial, by the `return` of line 110 with the "prematurely
timed out ... (cooldown skipped)" error when `error_on_timeout` is on and by
the `break` of line 112 otherwise (`available` staying as it was, so false
for a record entered with `available` not true); if `now + cooldown` is at or
before the deadline the pass sleeps for exactly the cooldown and goes round
again.  Hence every sleep of a run comes right after a clock reading `t` with
`t + cooldown` not past the deadline.  With `cooldown_ms > 1000 * timeout_sec`
and a monotonic clock, a run sleeps never and dials at most once, and a run
with a failed dial ends by cooldown overshoot, not by the plain timeout. -/
theorem cooldown_overshoot (env : Env) (state : dataSourcePortWaitType)
    (ht : 0 < state.TimeoutSec.Value) (ht2 : state.TimeoutSec.Value ≤ 9223372036)
    (hc : 0 < cooldownMsOf state) (hc2 : cooldownMsOf state ≤ 9223372036854) :
    endTimeOf env state = env.clock 0 + state.TimeoutSec.Value * 1000000000 ∧
    cooldownDurOf state = cooldownMsOf state * 1000000 ∧
    (∀ diags reads dials res, res.failed = true →
      (env.clock 0 + state.TimeoutSec.Value * 1000000000 <
          env.clock reads + cooldownMsOf state * 1000000 →
        afterDial env state diags (addressOf state) (endTimeOf env state) reads dials res =
          if state.ErrorOnTimeout.Value then
            Step.done Exit.cooldownReturn state
              (diags.AddError "connection timeout"
                ("prematurely timed out trying to connect to " ++ addressOf state ++
                  " (cooldown skipped)"))
              [Event.now (env.clock reads)]
          else
            Step.done Exit.cooldownBreak state diags [Event.now (env.clock reads)]) ∧
      (env.clock reads + cooldownMsOf state * 1000000 ≤
          env.clock 0 + state.TimeoutSec.Value * 1000000000 →
        afterDial env state diags (addressOf state) (endTimeOf env state) reads dials res =
          Step.next (reads + 1) (dials + 1)
            [Event.now (env.clock reads), Event.sleep (cooldownMsOf state * 1000000)])) ∧
    (∀ diags fuel r, tryConnect env state diags fuel = some r →
      (r.exit = Exit.cooldownReturn →
        state.ErrorOnTimeout.Value = true ∧
        r.diags = diags.AddError "connection timeout"
          ("prematurely timed out trying to connect to " ++ addressOf state ++
            " (cooldown skipped)")) ∧
      (r.exit = Exit.cooldownBreak →
        state.ErrorOnTimeout.Value = false ∧ r.diags = diags ∧
        r.state.Available = state.Available ∧
        (state.Available.Value = false → r.state.Available.Value = false)) ∧
      (∀ pre post d, r.trace = pre ++ Event.sleep d :: post →
        d = cooldownMsOf state * 1000000 ∧
        ∃ pre1 t, pre = pre1 ++ [Event.now t] ∧
          t + d ≤ env.clock 0 + state.TimeoutSec.Value * 1000000000) ∧
      (1000 * state.TimeoutSec.Value < cooldownMsOf state → Monotone env.clock →
        (∀ x ∈ r.trace, x.isSleep = false) ∧
        (r.trace.filter Event.isDial).length ≤ 1 ∧
        ((∃ a tmo res, Event.dial a tmo res ∈ r.trace ∧ res.failed = true) →
          (state.ErrorOnTimeout.Value = true → r.exit = Exit.cooldownReturn) ∧
          (state.ErrorOnTimeout.Value = false → r.exit = Exit.cooldownBreak)))) := by
  have hend : endTimeOf env state = env.clock 0 + state.TimeoutSec.Value * 1000000000 := by
    unfold endTimeOf Time.Add durationOf Second
    rw [wrapInt64_of_range _ (by omega) (by omega)]
  have hdur : cooldownDurOf state = cooldownMsOf state * 1000000 := by
    unfold cooldownDurOf durationOf Millisecond
    exact wrapInt64_of_range _ (by omega) (by omega)
  have hcne : cooldownMsOf state ≠ 0 := ne_of_gt hc
  have htne : state.TimeoutSec.Value ≠ 0 := ne_of_gt ht
  have hstep : ∀ (diags : Diagnostics) (reads dials : Nat) (res : DialResult),
      res.failed = true →
      (env.clock 0 + state.TimeoutSec.Value * 1000000000 <
          env.clock reads + cooldownMsOf state * 1000000 →
        afterDial env state diags (addressOf state) (endTimeOf env state) reads dials res =
          if state.ErrorOnTimeout.Value then
            Step.done Exit.cooldownReturn state
              (diags.AddError "connection timeout"
                ("prematurely timed out trying to connect to " ++ addressOf state ++
                  " (cooldown skipped)"))
              [Event.now (env.clock reads)]
          else
            Step.done Exit.cooldownBreak state diags [Event.now (env.clock reads)]) ∧
      (env.clock reads + cooldownMsOf state * 1000000 ≤
          env.clock 0 + state.TimeoutSec.Value * 1000000000 →
        afterDial env state diags (addressOf state) (endTimeOf env state) reads dials res =
          Step.next (reads + 1) (dials + 1)
            [Event.now (env.clock reads), Event.sleep (cooldownMsOf state * 1000000)]) := by
    intro diags reads dials res hf
    have hunf : afterDial env state diags (addressOf state) (endTimeOf env state) reads dials
        res =
        if Time.After (Time.Add (env.clock reads) (cooldownDurOf state)) (endTimeOf env state)
        then
          if state.ErrorOnTimeout.Value then
            Step.done Exit.cooldownReturn state
              (diags.AddError "connection timeout"
                ("prematurely timed out trying to connect to " ++ addressOf state ++
                  " (cooldown skipped)"))
              [Event.now (env.clock reads)]
          else
            Step.done Exit.cooldownBreak state diags [Event.now (env.clock reads)]
        else
          Step.next (reads + 1) (dials + 1)
            [Event.now (env.clock reads), Event.sleep (cooldownDurOf state)] := by
      simp only [afterDial, hf, if_true, cooldownDurOf, ne_eq, hcne, htne, not_false_eq_true]
    rw [hunf, hend, hdur]
    constructor
    · intro hlt
      have : Time.After (Time.Add (env.clock reads) (cooldownMsOf state * 1000000))
          (env.clock 0 + state.TimeoutSec.Value * 1000000000) = true := by
        simpa [Time.After, Time.Add] using hlt
      rw [this]
      simp
    · intro hle
      have : Time.After (Time.Add (env.clock reads) (cooldownMsOf state * 1000000))
          (env.clock 0 + state.TimeoutSec.Value * 1000000000) = false := by
        simpa [Time.After, Time.Add] using hle
      rw [this]
      simp
  refine ⟨hend, hdur, hstep, ?_⟩
  intro diags fuel r h
  obtain ⟨tr, htr, hok, hchain⟩ := tryConnect_events env state diags fuel r h
  refine ⟨?_, ?_, ?_, ?_⟩
  · intro he
    rcases tryConnect_final env state diags fuel r h with
      ⟨he1, _⟩ | ⟨he1, _⟩ | ⟨he1, _⟩ | ⟨he1, _⟩ | ⟨_, _, heo, _, _, hd⟩
    · rw [he] at he1; exact Exit.noConfusion he1
    · rw [he] at he1; exact Exit.noConfusion he1
    · rw [he] at he1; exact Exit.noConfusion he1
    · rw [he] at he1; exact Exit.noConfusion he1
    · exact ⟨heo, hd⟩
  · intro he
    rcases tryConnect_final env state diags fuel r h with
      ⟨he1, _⟩ | ⟨he1, _⟩ | ⟨_, hd, _, heo, _, hs⟩ | ⟨he1, _⟩ | ⟨he1, _⟩
    · rw [he] at he1; exact Exit.noConfusion he1
    · rw [he] at he1; exact Exit.noConfusion he1
    · exact ⟨heo, hd, by rw [hs], fun hav => by rw [hs]; exact hav⟩
    · rw [he] at he1; exact Exit.noConfusion he1
    · rw [he] at he1; exact Exit.noConfusion he1
  · intro pre post d hsplit
    have hmem : Event.sleep d ∈ tr := by
      have : Event.sleep d ∈ r.trace := by rw [hsplit]; simp
      rw [htr] at this
      rcases List.mem_cons.mp this with heq | hm
      · exact Event.noConfusion heq
      · exact hm
    have hd : d = cooldownMsOf state * 1000000 := by
      rw [← hdur]; exact (hok _ hmem).2
    refine ⟨hd, ?_⟩
    rcases chain_pred _ _ _ _ _ hchain hsplit with hnil | ⟨pre1, x, hpre, hrel⟩
    · rw [hnil, htr] at hsplit
      simp at hsplit
    · obtain ⟨t, hx, hle⟩ := hrel htne
      rw [hend] at hle
      exact ⟨pre1, t, by rw [hpre, hx], hle⟩
  · intro hbig hmono
    have hover : ∀ reads, Time.After (Time.Add (env.clock reads) (cooldownDurOf state))
        (endTimeOf env state) = true := by
      intro reads
      have h0 : @LE.le Int _ (env.clock 0) (env.clock reads) := hmono (Nat.zero_le reads)
      rw [hend, hdur]
      simp only [Time.After, Time.Add, decide_eq_true_eq]
      omega
    have hno : ∀ reads dials reads1 dials1 ev,
        iteration env state diags (addressOf state) (endTimeOf env state) reads dials ≠
          Step.next reads1 dials1 ev := by
      intro reads dials reads1 dials1 ev hit
      rcases iteration_next _ _ _ _ _ _ _ _ _ _ hit with
        ⟨_, ⟨h0, _⟩ | ⟨_, _, _, ⟨h0, _⟩ | ⟨_, hafter, _⟩⟩⟩
      · exact htne h0
      · exact hcne h0
      · rw [hover] at hafter
        exact Bool.noConfusion hafter
    obtain ⟨run, hl, hexit, _, htr2, _⟩ := tryConnect_some env state diags fuel r h
    have hone := loop_single _ _ _ _ _ _ _ _ _ hno hl
    rcases iteration_done _ _ _ _ _ _ _ _ _ _ _ hone with
      ⟨_, _, _, c, ⟨h0, _⟩ | ⟨_, _, hf, _, hev⟩⟩ | ⟨_, _, _, hev, _⟩ |
      ⟨_, _, hf, _, _, _, hev, ⟨heo, he, _⟩ | ⟨heo, he, _⟩⟩
    · exact absurd h0 htne
    · rw [htr2, hev]
      refine ⟨by simp [Event.isSleep], by simp [List.filter, Event.isDial], ?_⟩
      rintro ⟨a, tmo, res, hmem, hfail⟩
      simp only [List.mem_cons, List.mem_singleton, Event.dial.injEq, reduceCtorEq,
        List.not_mem_nil, or_false, false_or] at hmem
      obtain ⟨_, _, rfl⟩ := hmem
      rw [hf] at hfail
      exact Bool.noConfusion hfail
    · rw [htr2, hev]
      refine ⟨by simp [Event.isSleep], by simp [List.filter, Event.isDial], ?_⟩
      rintro ⟨a, tmo, res, hmem, _⟩
      simp at hmem
    · rw [htr2, hev]
      refine ⟨by simp [Event.isSleep], by simp [List.filter, Event.isDial], ?_⟩
      intro _
      exact ⟨fun _ => hexit.trans he, fun h1 => by rw [heo] at h1; exact Bool.noConfusion h1⟩
    · rw [htr2, hev]
      refine ⟨by simp [Event.isSleep], by simp [List.filter, Event.isDial], ?_⟩
      intro _
      exact ⟨fun h1 => by rw [heo] at h1; exact Bool.noConfusion h1, fun _ => hexit.trans he⟩

/-- C9 at the cooldown-overshoot scenario: `timeout_sec = 1`,
`cooldown_ms = 2000`, `error_on_timeout` on, unreachable host; the first
failed dial ends the run with the cooldown-skipped error. -/
theorem cooldown_overshoot_witness :
    tryConnect { clock := ticking 1000, dial := refusing } (overshooting { Value := 2000 }) [] 1 =
      some overshootRun ∧
    overshootRun.exit = Exit.cooldownReturn ∧
    (∀ x ∈ overshootRun.trace, x.isSleep = false) :=
  have key := (cooldown_overshoot { clock := ticking 1000, dial := refusing }
    (overshooting { Value := 2000 }) (by decide) (by decide) (by decide) (by decide)).2.2.2
      [] 1 overshootRun (by decide)
  have key2 := key.2.2.2 (by decide) (ticking_monotone 1000 (by decide))
  ⟨by decide,
    (key2.2.2 ⟨"nonexistent.example.tld:80", some 999999000,
      { conn := none, err := some "connection refused" }, by decide, by decide⟩).1 (by decide),
    key2.1⟩

/-- C9 as stated fails when the cooldown does not fit `time.Duration`: with
`timeout_sec = 1` and `cooldown_ms = 9223372036855` (more than
`1000 * timeout_sec`) the product on line 103 wraps to a negative duration,
so on a monotonic clock the first failed dial is followed by a sleep, not by
the end of the run, and the run ends later with the plain timeout error. -/
theorem cooldown_overshoot_counterexample :
    (0 < (overshooting { Value := 9223372036855 }).TimeoutSec.Value ∧
      0 < cooldownMsOf (overshooting { Value := 9223372036855 }) ∧
      1000 * (overshooting { Value := 9223372036855 }).TimeoutSec.Value <
        cooldownMsOf (overshooting { Value := 9223372036855 })) ∧
    Monotone jumping ∧
    (tryConnect { clock := jumping, dial := refusing }
        (overshooting { Value := 9223372036855 }) [] 2).map
        (fun r => (r.exit, r.diags, r.trace)) =
      some (Exit.timeoutReturn,
        [NewErrorDiagnostic "connection timeout"
          "timed out trying to connect to nonexistent.example.tld:80"],
        [Event.now 0,
          Event.now 0,
          Event.dial "nonexistent.example.tld:80" (some 1000000000)
            { conn := none, err := some "connection refused" },
          Event.now 0,
          Event.sleep (-9223372036854551616),
          Event.now 1000000000]) :=
  ⟨by decide, jumping_monotone, by decide⟩

/-- C10.  Under a timeout (`timeout_sec > 0`) each pass first computes what
remains until the deadline at the clock reading it takes.  If nothing remains
the pass leaves the loop without dialing: by the `return` of line 92 with the
error "timed out trying to connect to " + address when `error_on_timeout` is
on, by the `break` of line 94 otherwise.  If something remains the pass dials
with exactly that as its timeout.  So in a run every dial comes right after a
clock reading taken strictly before the deadline, its timeout is what then
remained, a positive duration, on a monotonic clock at most `timeout_sec`
seconds; a run that ends by timeout ends with a clock reading at or past the
deadline, and by the `break` it leaves `available` as it was, so false for a
record entered with `available` not true. -/
theorem deadline_respected (env : Env) (state : dataSourcePortWaitType)
    (ht : 0 < state.TimeoutSec.Value) :
    (∀ diags reads dials,
      (Time.Sub (endTimeOf env state) (env.clock reads) ≤ 0 →
        iteration env state diags (addressOf state) (endTimeOf env state) reads dials =
          if state.ErrorOnTimeout.Value then
            Step.done Exit.timeoutReturn state
              (diags.AddError "connection timeout"
                ("timed out trying to connect to " ++ addressOf state))
              [Event.now (env.clock reads)]
          else
            Step.done Exit.timeoutBreak state diags [Event.now (env.clock reads)]) ∧
      (0 < Time.Sub (endTimeOf env state) (env.clock reads) →
        iteration env state diags (addressOf state) (endTimeOf env state) reads dials =
          (afterDial env state diags (addressOf state) (endTimeOf env state) (reads + 1) dials
            (env.dial dials (addressOf state)
              (some (Time.Sub (endTimeOf env state) (env.clock reads))))).after
            [Event.now (env.clock reads),
              Event.dial (addressOf state)
                (some (Time.Sub (endTimeOf env state) (env.clock reads)))
                (env.dial dials (addressOf state)
                  (some (Time.Sub (endTimeOf env state) (env.clock reads))))])) ∧
    (∀ diags fuel r, tryConnect env state diags fuel = some r →
      (∀ pre post a tmo res, r.trace = pre ++ Event.dial a tmo res :: post →
        ∃ pre1 t, pre = pre1 ++ [Event.now t] ∧ t < endTimeOf env state ∧
          tmo = some (Time.Sub (endTimeOf env state) t) ∧
          0 < Time.Sub (endTimeOf env state) t ∧
          (Monotone env.clock →
            Time.Sub (endTimeOf env state) t ≤ state.TimeoutSec.Value * 1000000000)) ∧
      (r.exit = Exit.timeoutReturn ∨ r.exit = Exit.timeoutBreak →
        ∃ pre t, r.trace = pre ++ [Event.now t] ∧ endTimeOf env state ≤ t) ∧
      (r.exit = Exit.timeoutReturn →
        state.ErrorOnTimeout.Value = true ∧
        r.diags = diags.AddError "connection timeout"
          ("timed out trying to connect to " ++ addressOf state)) ∧
      (r.exit = Exit.timeoutBreak →
        state.ErrorOnTimeout.Value = false ∧ r.diags = diags ∧
        r.state.Available = state.Available ∧
        (state.Available.Value = false → r.state.Available.Value = false))) := by
  have htne : state.TimeoutSec.Value ≠ 0 := ne_of_gt ht
  refine ⟨?_, ?_⟩
  · intro diags reads dials
    constructor
    · intro hrem
      simp only [iteration, htne, if_false, hrem, if_true]
    · intro hpos
      simp only [iteration, htne, if_false, not_le.mpr hpos]
  · intro diags fuel r h
    obtain ⟨tr, htr, hok, hchain⟩ := tryConnect_events env state diags fuel r h
    refine ⟨?_, ?_, ?_, ?_⟩
    · intro pre post a tmo res hsplit
      rcases chain_pred _ _ _ _ _ hchain hsplit with hnil | ⟨pre1, x, hpre, hrel⟩
      · rw [hnil, htr] at hsplit
        simp at hsplit
      · obtain ⟨t, hx, htmo, hpos⟩ := hrel htne
        refine ⟨pre1, t, by rw [hpre, hx], (Time.sub_pos_iff _ _).mp hpos, htmo, hpos, ?_⟩
        intro hmono
        have hmem : Event.now t ∈ r.trace := by rw [hsplit, hpre, hx]; simp
        have hclock : ∃ k, t = env.clock k := by
          rw [htr] at hmem
          rcases List.mem_cons.mp hmem with heq | hm
          · exact ⟨0, by injection heq⟩
          · exact (hok _ hm).2
        obtain ⟨k, hk⟩ := hclock
        have h0 : @LE.le Int _ (env.clock 0) (env.clock k) := hmono (Nat.zero_le k)
        have hle := Time.sub_le _ _ hpos
        have hwrap := wrapInt64_le (state.TimeoutSec.Value * 1000000000) (by omega)
        have hend : endTimeOf env state =
            env.clock 0 + wrapInt64 (state.TimeoutSec.Value * 1000000000) := rfl
        rw [hend] at hle ⊢
        rw [hk] at hle ⊢
        omega
    · intro he
      obtain ⟨run, hl, hexit, _, htr2, _⟩ := tryConnect_some env state diags fuel r h
      obtain ⟨pre, r1, k1, ev, hsplit, hfin, _⟩ := loop_final _ _ _ _ _ _ _ _ _ hl
      rw [hexit] at he
      rcases iteration_done _ _ _ _ _ _ _ _ _ _ _ hfin with
        ⟨he1, _⟩ | ⟨_, hrem, _, hev, _⟩ | ⟨_, _, _, _, _, _, _, ⟨_, he1, _⟩ | ⟨_, he1, _⟩⟩
      · rw [he1] at he
        rcases he with he | he <;> exact Exit.noConfusion he
      · refine ⟨Event.now (env.clock 0) :: pre, env.clock r1, by simp [htr2, hsplit, hev], ?_⟩
        by_contra hlt
        exact absurd ((Time.sub_pos_iff _ _).mpr (not_le.mp hlt)) (not_lt.mpr hrem)
      · rw [he1] at he
        rcases he with he | he <;> exact Exit.noConfusion he
      · rw [he1] at he
        rcases he with he | he <;> exact Exit.noConfusion he
    · intro he
      rcases tryConnect_final env state diags fuel r h with
        ⟨he1, _⟩ | ⟨he1, _⟩ | ⟨he1, _⟩ | ⟨_, _, heo, _, hd⟩ | ⟨he1, _⟩
      · rw [he] at he1; exact Exit.noConfusion he1
      · rw [he] at he1; exact Exit.noConfusion he1
      · rw [he] at he1; exact Exit.noConfusion he1
      · exact ⟨heo, hd⟩
      · rw [he] at he1; exact Exit.noConfusion he1
    · intro he
      rcases tryConnect_final env state diags fuel r h with
        ⟨he1, _⟩ | ⟨_, hd, _, heo, hs⟩ | ⟨he1, _⟩ | ⟨he1, _⟩ | ⟨he1, _⟩
      · rw [he] at he1; exact Exit.noConfusion he1
      · exact ⟨heo, hd, by rw [hs], fun hav => by rw [hs]; exact hav⟩
      · rw [he] at he1; exact Exit.noConfusion he1
      · rw [he] at he1; exact Exit.noConfusion he1
      · rw [he] at he1; exact Exit.noConfusion he1

/-- C10 at the first test: both dials are made before the deadline, with
what remained as timeout, and the run ends on a reading past the deadline. -/
theorem deadline_respected_witness :
    tryConnect { clock := ticking 400000000, dial := refusing } unreachableError [] 3 =
      some errorRun ∧
    (∃ pre1 t, [Event.now 0, Event.now 400000000,
        Event.dial "nonexistent.example.tld:80" (some 600000000)
          { conn := none, err := some "connection refused" },
        Event.now 800000000] = pre1 ++ [Event.now t] ∧
      t < endTimeOf { clock := ticking 400000000, dial := refusing } unreachableError ∧
      some 200000000 =
        some (Time.Sub (endTimeOf { clock := ticking 400000000, dial := refusing }
          unreachableError) t) ∧
      0 < Time.Sub (endTimeOf { clock := ticking 400000000, dial := refusing }
        unreachableError) t ∧
      (Monotone (ticking 400000000) →
        Time.Sub (endTimeOf { clock := ticking 400000000, dial := refusing }
          unreachableError) t ≤ 1 * 1000000000)) :=
  ⟨by decide,
    ((deadline_respected { clock := ticking 400000000, dial := refusing } unreachableError
      (by decide)).2 [] 3 errorRun (by decide)).1
      [Event.now 0, Event.now 400000000,
        Event.dial "nonexistent.example.tld:80" (some 600000000)
          { conn := none, err := some "connection refused" },
        Event.now 800000000]
      [Event.now 1200000000] "nonexistent.example.tld:80" (some 200000000)
      { conn := none, err := some "connection refused" } (by decide)⟩

end PortWait
